import Mathlib

/-!
# zoh-cli: pagination, rate-limit transport and client

A shallow embedding of `internal/zoho/pagination.go`, `internal/zoho/ratelimit.go`
and `internal/zoho/client.go`, followed by theorems about them.

Conventions.
* A Go `error` is an `Option Err`: `none` is `nil`.
* A Go slice is a `List`; the `nil` slice and the empty slice are both `[]`.
* A Go closure that may keep state is a state-passing function over a state
  type `σ` chosen by the caller.
* Every call made to a collaborator (the fetch function, the limiter, the
  underlying sender, the backoff, the timer) is recorded in a trace, so that
  statements about how often and in which order the code calls out can be made.
* A loop is a function with a `fuel` argument that bounds its iterations; a run
  that is cut short by the fuel has `ret = none`.
* Go's `int` and `time.Duration` are 64 bits wide. Where the code multiplies
  durations the product wraps around (`wrap64`); offsets and lengths of slices
  stay far below that range and are plain integers.
* The libraries the code calls (`strconv.Atoi`, `time.Parse`, `time.Until`,
  `backoff.ExponentialBackOff`, `rate.Limiter`, `context.Context`) are outside the
  repository. `Atoi` and `time.Until` are modelled after their documented
  behaviour; the others are the fields of `Env`, which may answer in any way.
  The section on the exponential backoff gives the answers of
  `backoff.ExponentialBackOff` as the library computes them, for the statements
  that depend on them.
-/

namespace Zoho

/-- A Go `error` value that is not `nil`. -/
abbrev Err := String

/-! # Definitions

## pagination.go -/

/-- The `PageIterator[T]` struct. `fetchFunc start limit` is a Go closure: it
reads and updates a state of type `σ` and returns `([]T, error)`. -/
structure PageIterator (σ T : Type) where
  fetchFunc : Int → Int → σ → Except Err (List T) × σ
  pageSize : Int
  current : Int
  done : Bool

/-- The constructor `NewPageIterator`: a non-positive page size is replaced by 50. -/
def NewPageIterator {σ T : Type} (fetchFunc : Int → Int → σ → Except Err (List T) × σ)
    (pageSize : Int) : PageIterator σ T :=
  { fetchFunc := fetchFunc
    pageSize := if pageSize ≤ 0 then 50 else pageSize
    current := 0
    done := false }

/-- The method `FetchPage`: one call of the fetch function at `start`, the page size as limit. -/
def PageIterator.FetchPage {σ T : Type} (p : PageIterator σ T) (start : Int) (s : σ) :
    Except Err (List T) × σ :=
  p.fetchFunc start p.pageSize s

/-- One recorded call of the fetch function: its two arguments and what it returned. -/
structure FetchCall (T : Type) where
  start : Int
  limit : Int
  result : Except Err (List T)

/-- The number of items a recorded call returned (0 for a call that failed). -/
def FetchCall.count {T : Type} (c : FetchCall T) : Nat :=
  match c.result with
  | .ok page => page.length
  | .error _ => 0

/-- What is observable of a run of `FetchAll`: the returned pair `(results, err)`
(`none` while the loop is still running when the fuel ends), the iterator and the
closure state it leaves behind, and the calls it made, in order. -/
structure FetchRun (σ T : Type) where
  ret : Option (List T × Option Err)
  iter : PageIterator σ T
  state : σ
  calls : List (FetchCall T)

/-- The `for !p.done` loop of `FetchAll`. `fuel` bounds the number of iterations;
`results` is the local slice and `calls` the calls recorded so far. -/
def PageIterator.fetchLoop {σ T : Type} :
    Nat → PageIterator σ T → σ → List T → List (FetchCall T) → FetchRun σ T
  | fuel, p, s, results, calls =>
    if p.done then
      { ret := some (results, none), iter := p, state := s, calls := calls }
    else
      match fuel with
      | 0 => { ret := none, iter := p, state := s, calls := calls }
      | fuel + 1 =>
        match p.FetchPage p.current s with
        | (.error err, s1) =>
          { ret := some ([], some err), iter := p, state := s1,
            calls := calls ++ [⟨p.current, p.pageSize, .error err⟩] }
        | (.ok page, s1) =>
          let calls1 := calls ++ [⟨p.current, p.pageSize, .ok page⟩]
          let results1 := results ++ page
          if (page.length : Int) < p.pageSize then
            { ret := some (results1, none), iter := { p with done := true }, state := s1,
              calls := calls1 }
          else
            PageIterator.fetchLoop fuel { p with current := p.current + page.length } s1
              results1 calls1

/-- The method `FetchAll`: starts with an empty result and runs the loop. -/
def PageIterator.FetchAll {σ T : Type} (p : PageIterator σ T) (s : σ) (fuel : Nat) :
    FetchRun σ T :=
  p.fetchLoop fuel s [] []

/-- The fetch source of the pagination properties: a fixed list `xs`, of which
`(offset, limit)` returns `xs[offset : min(offset+limit, len xs)]`. It keeps no state. -/
def sliceFetch {T : Type} (xs : List T) : Int → Int → Unit → Except Err (List T) × Unit :=
  fun start limit s => (.ok ((xs.drop start.toNat).take limit.toNat), s)

/-- The call that the loop records at offset `c` over the sliced source. -/
def sliceCall {T : Type} (xs : List T) (p c : Nat) : FetchCall T :=
  ⟨(c : Int), (p : Int), .ok ((xs.drop c).take p)⟩

/-- The calls in `cs` are made with limit `limit`, the first at offset `o`, each later one at
the offset of the call before it plus the number of items that call returned. -/
def chainFrom {T : Type} (limit : Int) : Int → List (FetchCall T) → Prop
  | _, [] => True
  | o, c :: cs => c.start = o ∧ c.limit = limit ∧ chainFrom limit (o + c.count) cs

/-- A fetch function that ignores the limit: its first two calls return three items each, all
later calls none. Its state is the number of calls made so far. -/
def overFetch : Int → Int → Nat → Except Err (List Int) × Nat :=
  fun start _ n => if n < 2 then (.ok [start, start + 1, start + 2], n + 1) else (.ok [], n + 1)

/-! ## ratelimit.go -/

/-- A `time.Duration`: a signed 64-bit count of nanoseconds. -/
abbrev Duration := Int

/-- Two's-complement wrap-around of an integer to the range of `int64`. -/
def wrap64 (x : Int) : Int := (x + 2 ^ 63) % 2 ^ 64 - 2 ^ 63

/-- Saturation of an integer to the range of `int64` (what `time.Time.Sub` does). -/
def clamp64 (x : Int) : Int :=
  if x < -(2 ^ 63) then -(2 ^ 63) else if 2 ^ 63 - 1 < x then 2 ^ 63 - 1 else x

/-- The constant `time.Second`. -/
def Second : Duration := 1000000000

/-- The constant `backoff.Stop` of `github.com/cenkalti/backoff/v4`. -/
def Stop : Duration := -1

/-- The constant `http.StatusTooManyRequests`. -/
def StatusTooManyRequests : Int := 429

/-- The local constant `maxRetries := 3` of `RoundTrip`. -/
def maxRetries : Nat := 3

/-- A response body: the bytes not yet read, and whether `Close` has been called. -/
structure Body where
  unread : List Nat
  closed : Bool
  deriving DecidableEq, Repr

/-- The part of an `http.Response` that `RoundTrip` looks at: the status code, the
`Retry-After` header (`none` when the header is absent) and the body. -/
structure Response where
  StatusCode : Int
  RetryAfter : Option String
  Body : Body
  deriving DecidableEq, Repr

/-- The value of `resp.Header.Get("Retry-After")`: the empty string when the header is absent. -/
def Response.headerRetryAfter (resp : Response) : String :=
  resp.RetryAfter.getD ""

/-- The effect of `io.Copy(io.Discard, resp.Body)` followed by `resp.Body.Close()`. -/
def Response.drainClose (resp : Response) : Response :=
  { resp with Body := { unread := [], closed := true } }

/-- The value of a string of decimal digits. -/
def digitsValue (ds : List Char) : Nat :=
  ds.foldl (fun acc c => 10 * acc + (c.toNat - 48)) 0

/-- Go's `strconv.Atoi` for a 64-bit `int`: an optional sign `+` or `-`, then one or more
decimal digits, the value being within the range of `int64`; anything else is an error
(`none`). -/
def Atoi (s : String) : Option Int :=
  let cs := s.toList
  let ds :=
    match cs with
    | '+' :: rest => rest
    | '-' :: rest => rest
    | _ => cs
  if ds.isEmpty || !ds.all Char.isDigit then none
  else
    let n : Int := if cs.head? = some '-' then -(digitsValue ds : Int) else (digitsValue ds : Int)
    if -(2 ^ 63) ≤ n ∧ n ≤ 2 ^ 63 - 1 then some n else none

/-- The result of one call of `t.Base.RoundTrip(req)`: a response with a nil error, or a
non-nil error (in which case `RoundTrip` ignores the response). -/
inductive SendResult where
  | response (resp : Response)
  | failure (err : Err)
  deriving DecidableEq, Repr

/-- The collaborators of one `RoundTrip` call, as seen by that call. Instants are nanoseconds on
an absolute time line.
* `limiterWait`: what `t.Limiter.Wait(req.Context())` returns.
* `baseRoundTrip k`: what `t.Base.RoundTrip(req)` returns in the iteration with `retryCount = k`.
* `parseRFC1123 s`: `time.Parse(time.RFC1123, s)`, `none` on a parse error.
* `now k`: the clock read by `time.Until` in the iteration with `retryCount = k`.
* `nextBackOff j`: what the `j`-th call (from 0) of `bo.NextBackOff()` returns.
* `ctxDone k d`: the `select` of the iteration with `retryCount = k` on a timer of duration `d`:
  `none` when the timer fires first, `some e` when `req.Context().Done()` fires first and
  `req.Context().Err()` is `e`. -/
structure Env where
  limiterWait : Option Err
  baseRoundTrip : Nat → SendResult
  parseRFC1123 : String → Option Int
  now : Nat → Int
  nextBackOff : Nat → Duration
  ctxDone : Nat → Duration → Option Err

/-- The value of `time.Until(t)` at clock reading `now`: the difference, saturated to `int64`. -/
def timeUntil (now t : Int) : Duration := clamp64 (t - now)

/-- The calls `RoundTrip` makes to its collaborators. -/
inductive Event where
  | acquire (err : Option Err)
  | send (retryCount : Nat) (res : SendResult)
  | drainClose (retryCount : Nat)
  | nextBackOff (d : Duration)
  | wait (d : Duration) (cancelled : Option Err)
  deriving DecidableEq, Repr

/-- What is observable of a `RoundTrip` call: the returned pair `(resp, err)` (`none` while the
loop is still running when the fuel ends) and the calls made, in order. -/
structure Run where
  ret : Option (Option Response × Option Err)
  trace : List Event
  deriving DecidableEq, Repr

/-- The run `r` preceded by the events `evs`. -/
def Run.after (evs : List Event) (r : Run) : Run :=
  { r with trace := evs ++ r.trace }

/-- Lines 68-80 of `RoundTrip`: the wait computed from the `Retry-After` header, 0 when the
header is absent or parses neither as an integer nor as an RFC1123 date. -/
def retryAfterWait (env : Env) (retryCount : Nat) (resp : Response) : Duration :=
  let retryAfter := resp.headerRetryAfter
  if retryAfter ≠ "" then
    match Atoi retryAfter with
    | some seconds => wrap64 (seconds * Second)
    | none =>
      match env.parseRFC1123 retryAfter with
      | some retryTime => timeUntil (env.now retryCount) retryTime
      | none => 0
  else 0

/-- The `for` loop of `RoundTrip`, from the iteration with the given `retryCount`, the backoff
having been asked `boCalls` times before. `fuel` bounds the number of iterations. -/
def retryLoop (env : Env) : Nat → Nat → Nat → Run
  | 0, _, _ => { ret := none, trace := [] }
  | fuel + 1, retryCount, boCalls =>
    match env.baseRoundTrip retryCount with
    | .failure err =>
      { ret := some (none, some err), trace := [.send retryCount (.failure err)] }
    | .response resp =>
      if resp.StatusCode ≠ StatusTooManyRequests then
        { ret := some (some resp, none), trace := [.send retryCount (.response resp)] }
      else if retryCount ≥ maxRetries then
        { ret := some (some resp, none), trace := [.send retryCount (.response resp)] }
      else
        let sent : List Event := [.send retryCount (.response resp), .drainClose retryCount]
        let waitDuration := retryAfterWait env retryCount resp
        if waitDuration > 0 then
          match env.ctxDone retryCount waitDuration with
          | some err =>
            { ret := some (none, some err), trace := sent ++ [.wait waitDuration (some err)] }
          | none =>
            (retryLoop env fuel (retryCount + 1) boCalls).after
              (sent ++ [.wait waitDuration none])
        else
          let backoffDuration := env.nextBackOff boCalls
          if backoffDuration = Stop then
            { ret := some (some resp.drainClose, none),
              trace := sent ++ [.nextBackOff backoffDuration] }
          else
            match env.ctxDone retryCount backoffDuration with
            | some err =>
              { ret := some (none, some err),
                trace := sent ++ [.nextBackOff backoffDuration,
                  .wait backoffDuration (some err)] }
            | none =>
              (retryLoop env fuel (retryCount + 1) (boCalls + 1)).after
                (sent ++ [.nextBackOff backoffDuration, .wait backoffDuration none])

/-- The method `RateLimitTransport.RoundTrip`: one token acquisition, then the retry loop with a
fresh backoff and `retryCount = 0`. -/
def RoundTrip (env : Env) (fuel : Nat) : Run :=
  match env.limiterWait with
  | some err => { ret := some (none, some err), trace := [.acquire (some err)] }
  | none => (retryLoop env fuel 0 0).after [.acquire none]

/-- Whether the event is a call of the underlying sender. -/
def Event.isSend : Event → Bool
  | .send _ _ => true
  | _ => false

/-- Whether the event is a call of the limiter. -/
def Event.isAcquire : Event → Bool
  | .acquire _ => true
  | _ => false

/-- The number of calls of the underlying sender in a trace. -/
def sendCount (tr : List Event) : Nat := tr.countP Event.isSend

/-- The number of calls of the limiter in a trace. -/
def acquireCount (tr : List Event) : Nat := tr.countP Event.isAcquire

/-- A 429 response without a `Retry-After` header and with an unread body. -/
def resp429 : Response :=
  { StatusCode := 429, RetryAfter := none, Body := { unread := [1, 2, 3], closed := false } }

/-- A 200 response with an unread body. -/
def resp200 : Response :=
  { StatusCode := 200, RetryAfter := none, Body := { unread := [4, 5], closed := false } }

/-- A server that always answers 429 without `Retry-After`; nothing is cancelled and the backoff
hands out one second each time. -/
def envAlways429 : Env :=
  { limiterWait := none
    baseRoundTrip := fun _ => .response resp429
    parseRFC1123 := fun _ => none
    now := fun _ => 0
    nextBackOff := fun _ => Second
    ctxDone := fun _ _ => none }

/-- A 429 response carrying the given `Retry-After` header, with an unread body. -/
def resp429After (h : String) : Response :=
  { StatusCode := 429, RetryAfter := some h, Body := { unread := [1, 2, 3], closed := false } }

/-- A server that answers 429 without `Retry-After` once and 200 afterwards; nothing is
cancelled and the backoff hands out one second each time. -/
def env429Then200 : Env :=
  { envAlways429 with
    baseRoundTrip := fun k => if k = 0 then .response resp429 else .response resp200 }

/-- A server that answers 429 without `Retry-After` once; the retry then fails below HTTP. -/
def env429ThenFailure : Env :=
  { envAlways429 with
    baseRoundTrip := fun k => if k = 0 then .response resp429 else .failure "connection reset" }

/-- A server that answers 429 with the given `Retry-After` header once and 200 afterwards;
nothing is cancelled and the backoff hands out one second each time. -/
def envRetryAfterThen200 (h : String) : Env :=
  { envAlways429 with
    baseRoundTrip := fun k => if k = 0 then .response (resp429After h) else .response resp200 }

/-- A server that always answers 429 with `Retry-After: 2`, the request context being cancelled
during every wait. -/
def envCancelledWait : Env :=
  { envAlways429 with
    baseRoundTrip := fun _ => .response (resp429After "2")
    ctxDone := fun _ _ => some "context canceled" }

/-- A limiter whose `Wait` is cancelled. -/
def envCancelledAcquire : Env :=
  { envAlways429 with limiterWait := some "context canceled" }

/-- A server that answers 429 with an HTTP-date `Retry-After` once and 200 afterwards; the date
parses to the instant 1136214245 s and the clock reads 1700000000 s, so the date is past. -/
def envPastDate : Env :=
  { envAlways429 with
    baseRoundTrip := fun k =>
      if k = 0 then .response (resp429After "Mon, 02 Jan 2006 15:04:05 GMT")
      else .response resp200
    parseRFC1123 := fun h =>
      if h = "Mon, 02 Jan 2006 15:04:05 GMT" then some (1136214245 * Second) else none
    now := fun _ => 1700000000 * Second }

/-- A fetch function whose first call returns the two items `[start, start + 1]` and whose every
later call fails with the error `boom`. Its state is the number of calls made so far. -/
def failingFetch : Int → Int → Nat → Except Err (List Int) × Nat :=
  fun start _ n => if n = 0 then (.ok [start, start + 1], n + 1) else (.error "boom", n + 1)

/-- A server that always answers 429 with `Retry-After: 2`; nothing is cancelled. -/
def envAlways429After2 : Env :=
  { envAlways429 with baseRoundTrip := fun _ => .response (resp429After "2") }

/-- A server that always answers 429 without `Retry-After`, the backoff reporting `Stop` the
first time it is asked. -/
def envBackoffStop : Env :=
  { envAlways429 with nextBackOff := fun _ => Stop }

/-- A server that answers 429 with an HTTP-date `Retry-After` once and 200 afterwards; the date
parses to the instant 1136214245 s and the clock reads 1136214215 s, 30 s before it. -/
def envFutureDate : Env :=
  { envPastDate with now := fun _ => 1136214215 * Second }

/-- A server that answers 429 with the `Retry-After` date `Fri, 31 Dec 9999 23:59:59 GMT` once
and 200 afterwards; the date parses to the instant 253402300799 s and the clock reads
1793577600 s (2 November 2026), more than 292 years before it. -/
def envFarFutureDate : Env :=
  { envAlways429 with
    baseRoundTrip := fun k =>
      if k = 0 then .response (resp429After "Fri, 31 Dec 9999 23:59:59 GMT")
      else .response resp200
    parseRFC1123 := fun h =>
      if h = "Fri, 31 Dec 9999 23:59:59 GMT" then some (253402300799 * Second) else none
    now := fun _ => 1793577600 * Second }

/-! ## The exponential backoff

The backoff object of `RoundTrip` is an `ExponentialBackOff` of the library
`github.com/cenkalti/backoff/v4`, which is outside the repository. What follows is the part
of the library that lines 39-42 and 90 of `ratelimit.go` run. The library computes in
`float64`: the factors are kept here as fractions, a random number as its numerator over
`2 ^ 63`, and the arithmetic is exact. -/

/-- The `ExponentialBackOff` struct of the library: the exported fields that take part in
`NextBackOff`, the randomisation factor and the multiplier as fractions, and the unexported
`currentInterval`. The start time is not kept: the elapsed time is handed to `NextBackOff`. -/
structure ExponentialBackOff where
  InitialInterval : Duration
  randNum : Nat
  randDen : Nat
  multNum : Nat
  multDen : Nat
  MaxInterval : Duration
  MaxElapsedTime : Duration
  currentInterval : Duration
  deriving DecidableEq, Repr

/-- The method `Reset` of the library: the current interval goes back to the initial one. -/
def ExponentialBackOff.Reset (b : ExponentialBackOff) : ExponentialBackOff :=
  { b with currentInterval := b.InitialInterval }

/-- The constructor `NewExponentialBackOff` of the library: the defaults (initial interval
500 ms, randomisation factor 0.5, multiplier 1.5, maximal interval 60 s, maximal elapsed time
15 min), followed by `Reset`. -/
def NewExponentialBackOff : ExponentialBackOff :=
  ExponentialBackOff.Reset
    { InitialInterval := 500000000
      randNum := 1
      randDen := 2
      multNum := 3
      multDen := 2
      MaxInterval := 60 * Second
      MaxElapsedTime := 15 * (60 * Second)
      currentInterval := 0 }

/-- The method `incrementCurrentInterval` of the library: the current interval times the
multiplier, or the maximal interval once the current interval has reached the maximal interval
divided by the multiplier. -/
def ExponentialBackOff.incrementCurrentInterval (b : ExponentialBackOff) : ExponentialBackOff :=
  if b.currentInterval * (b.multNum : Int) ≥ b.MaxInterval * (b.multDen : Int) then
    { b with currentInterval := b.MaxInterval }
  else
    { b with currentInterval := b.currentInterval * (b.multNum : Int) / (b.multDen : Int) }

/-- The function `getRandomValueFromInterval` of the library, for the randomisation factor
`randNum / randDen` and the random number `random / 2 ^ 63` of `rand.Float64()`: with
`delta = factor * currentInterval`, the value
`minInterval + random * (maxInterval - minInterval + 1)` between `currentInterval - delta` and
`currentInterval + delta`, cut to a whole number of nanoseconds. -/
def getRandomValueFromInterval (randNum randDen random : Nat) (currentInterval : Duration) :
    Duration :=
  if randNum = 0 then currentInterval
  else
    (currentInterval * ((randDen : Int) - (randNum : Int)) * 2 ^ 63
        + (random : Int) * (2 * (randNum : Int) * currentInterval + (randDen : Int)))
      / ((randDen : Int) * 2 ^ 63)

/-- The method `NextBackOff` of the library, `elapsed` being what `GetElapsedTime()` returns and
`random / 2 ^ 63` what `rand.Float64()` returns: the randomised value of the current interval,
or `Stop` when the elapsed time and that value together exceed the maximal elapsed time; the
current interval is incremented in either case. (Releases before 4.1 compare the elapsed time
alone; `elapsed` is any value here, so both are covered.) -/
def ExponentialBackOff.NextBackOff (b : ExponentialBackOff) (elapsed : Duration) (random : Nat) :
    Duration × ExponentialBackOff :=
  let next := getRandomValueFromInterval b.randNum b.randDen random b.currentInterval
  (if b.MaxElapsedTime ≠ 0 ∧ elapsed + next > b.MaxElapsedTime then Stop else next,
   b.incrementCurrentInterval)

/-- Lines 39-42 of `RoundTrip`: `bo := backoff.NewExponentialBackOff()` and then the three
assignments to the fields `InitialInterval`, `MaxInterval` and `MaxElapsedTime`. -/
def roundTripBackOff : ExponentialBackOff :=
  let bo := NewExponentialBackOff
  let bo := { bo with InitialInterval := 1 * Second }
  let bo := { bo with MaxInterval := 30 * Second }
  { bo with MaxElapsedTime := 2 * (60 * Second) }

/-- The backoff object of a `RoundTrip` call before its `j`-th call (from 0) of
`bo.NextBackOff()`, the `n`-th call reading the elapsed time `elapsed n` and drawing the random
number `random n / 2 ^ 63`. -/
def boBefore (elapsed : Nat → Duration) (random : Nat → Nat) : Nat → ExponentialBackOff
  | 0 => roundTripBackOff
  | j + 1 => ((boBefore elapsed random j).NextBackOff (elapsed j) (random j)).2

/-- What the `j`-th call (from 0) of `bo.NextBackOff()` in a `RoundTrip` call returns. -/
def boNextBackOff (elapsed : Nat → Duration) (random : Nat → Nat) (j : Nat) : Duration :=
  ((boBefore elapsed random j).NextBackOff (elapsed j) (random j)).1

/-- The wait durations of a trace that were taken from the backoff: the durations of the waits
that directly follow a call of `NextBackOff`. -/
def backoffWaits : List Event → List Duration
  | [] => []
  | .nextBackOff _ :: .wait d c :: rest => d :: backoffWaits (.wait d c :: rest)
  | _ :: rest => backoffWaits rest

/-- Random numbers for three calls of `bo.NextBackOff()`: one half, then zero, then one half. -/
def drawsHalfZeroHalf : Nat → Nat :=
  fun j => if j = 1 then 0 else 2 ^ 62

/-- A server that always answers 429 without `Retry-After`, nothing being cancelled, with the
backoff object of `RoundTrip`, no time passing between the attempts and the random numbers
`drawsHalfZeroHalf`. -/
def envLibraryBackoff : Env :=
  { envAlways429 with nextBackOff := boNextBackOff (fun _ => 0) drawsHalfZeroHalf }

/-! ## client.go -/

/-- The type `config.RegionConfig`, declared in `internal/config`, outside the files at hand:
the three fields that `client.go` reads. -/
structure RegionConfig where
  APIBase : String
  MailBase : String
  AccountsServer : String
  deriving DecidableEq, Repr

/-- A `*rate.Limiter`: the identity of the object, the interval between two tokens and the
burst. -/
structure Limiter where
  id : Nat
  every : Duration
  burst : Nat
  deriving DecidableEq, Repr

/-- The function `NewRateLimiter` of `ratelimit.go`,
`rate.NewLimiter(rate.Every(time.Minute/25), 5)`; `id` is the identity of the new limiter. -/
def NewRateLimiter (id : Nat) : Limiter :=
  { id := id, every := 60 * Second / 25, burst := 5 }

/-- An `oauth2.TokenSource`, by name. -/
abbrev TokenSource := String

/-- The `http.RoundTripper` values that `client.go` builds: `http.DefaultTransport`, an
`oauth2.Transport` over a base, which adds the bearer credential, and a `RateLimitTransport`
over a base. -/
inductive RoundTripper where
  | DefaultTransport
  | oauth2Transport (Base : RoundTripper) (Source : TokenSource)
  | RateLimitTransport (Base : RoundTripper) (Limiter : Limiter)
  deriving DecidableEq, Repr

/-- The limiters that a request sent through the transport acquires a token from. -/
def RoundTripper.limiters : RoundTripper → List Limiter
  | .DefaultTransport => []
  | .oauth2Transport base _ => base.limiters
  | .RateLimitTransport base limiter => limiter :: base.limiters

/-- The token sources whose bearer credential a request sent through the transport gets. -/
def RoundTripper.tokenSources : RoundTripper → List TokenSource
  | .DefaultTransport => []
  | .oauth2Transport base source => source :: base.tokenSources
  | .RateLimitTransport base _ => base.tokenSources

/-- An `http.Client`: its transport and its timeout. -/
structure HttpClient where
  Transport : RoundTripper
  Timeout : Duration
  deriving DecidableEq, Repr

/-- The `Client` struct. -/
structure Client where
  httpClient : HttpClient
  region : RegionConfig
  rateLimiter : Limiter
  deriving DecidableEq, Repr

/-- An `http.Request`: method, URL, header and body (`none` for a nil `io.Reader`). The header
maps a key to its value. -/
structure Request where
  Method : String
  URL : String
  Header : List (String × String)
  Body : Option (List Nat)
  deriving DecidableEq, Repr

/-- The effect of `req.Header.Set(key, value)`: the value replaces any value set for the key. -/
def Request.headerSet (req : Request) (key value : String) : Request :=
  { req with Header := (key, value) :: req.Header.filter (fun kv => kv.1 ≠ key) }

/-- The value that the header holds for the key, `none` when the key is not set. -/
def Request.headerValue (req : Request) (key : String) : Option String :=
  (req.Header.find? (fun kv => kv.1 = key)).map (fun kv => kv.2)

/-- The function `http.NewRequestWithContext(ctx, method, url, body)`. `newRequestErr method url`
is the error it reports (a method that is no token, a URL that does not parse), `none` when it
builds the request; the request it builds has an empty header and, for an empty method, the
method `GET`. -/
def NewRequestWithContext (newRequestErr : String → String → Option Err)
    (method url : String) (body : Option (List Nat)) : Except Err Request :=
  match newRequestErr method url with
  | some err => .error err
  | none =>
    .ok { Method := if method = "" then "GET" else method, URL := url, Header := [], Body := body }

/-- What a method of `Client` returns: the error of a request that could not be built, wrapped
by `fmt.Errorf("create request: %w", err)`, or whatever `client.Do(req)` returns for the client
and the request given. -/
inductive CallResult where
  | createError (err : Err)
  | clientDo (client : HttpClient) (req : Request)
  deriving DecidableEq, Repr

/-- The constant `http.MethodPost`. -/
def MethodPost : String := "POST"

/-- The constant `http.MethodPut`. -/
def MethodPut : String := "PUT"

/-- The constant `http.MethodPatch`. -/
def MethodPatch : String := "PATCH"

/-- The function `NewClient`. `getRegion` is `config.GetRegion`, declared outside the files at
hand; `limiterId` is the identity of the limiter that `NewRateLimiter()` allocates. -/
def NewClient (getRegion : String → Except Err RegionConfig) (limiterId : Nat)
    (cfgRegion : String) (tokenSource : TokenSource) : Except Err Client :=
  match getRegion cfgRegion with
  | .error err => .error ("invalid region " ++ cfgRegion.quote ++ ": " ++ err)
  | .ok regionConfig =>
    let rateLimiter := NewRateLimiter limiterId
    let baseTransport := RoundTripper.DefaultTransport
    let oauth2Transport := RoundTripper.oauth2Transport baseTransport tokenSource
    let rateLimitTransport := RoundTripper.RateLimitTransport oauth2Transport rateLimiter
    let httpClient : HttpClient := { Transport := rateLimitTransport, Timeout := 30 * Second }
    .ok { httpClient := httpClient, region := regionConfig, rateLimiter := rateLimiter }

/-- The method `doRequest`: builds the request, sets the content type of a `POST`, `PUT` or
`PATCH` with a body, and hands the request to the client's `http.Client`. -/
def Client.doRequest (c : Client) (newRequestErr : String → String → Option Err)
    (method url : String) (body : Option (List Nat)) : CallResult :=
  match NewRequestWithContext newRequestErr method url body with
  | .error err => .createError ("create request: " ++ err)
  | .ok req =>
    let req :=
      if body ≠ none ∧ (method = MethodPost ∨ method = MethodPut ∨ method = MethodPatch) then
        req.headerSet "Content-Type" "application/json"
      else req
    .clientDo c.httpClient req

/-- The method `Do`: `doRequest` on the API base address followed by the path. -/
def Client.Do (c : Client) (newRequestErr : String → String → Option Err)
    (method path : String) (body : Option (List Nat)) : CallResult :=
  c.doRequest newRequestErr method (c.region.APIBase ++ path) body

/-- The method `DoMail`: `doRequest` on the mail base address followed by the path. -/
def Client.DoMail (c : Client) (newRequestErr : String → String → Option Err)
    (method path : String) (body : Option (List Nat)) : CallResult :=
  c.doRequest newRequestErr method (c.region.MailBase ++ path) body

/-- The method `DoAuth`: builds the request on the accounts server, sets the content type as
`doRequest` does, and hands the request to a new `http.Client` on `http.DefaultTransport`. -/
def Client.DoAuth (c : Client) (newRequestErr : String → String → Option Err)
    (method path : String) (body : Option (List Nat)) : CallResult :=
  let url := c.region.AccountsServer ++ path
  match NewRequestWithContext newRequestErr method url body with
  | .error err => .createError ("create request: " ++ err)
  | .ok req =>
    let req :=
      if body ≠ none ∧ (method = MethodPost ∨ method = MethodPut ∨ method = MethodPatch) then
        req.headerSet "Content-Type" "application/json"
      else req
    let baseClient : HttpClient :=
      { Transport := RoundTripper.DefaultTransport, Timeout := 30 * Second }
    .clientDo baseClient req

/-- A region. -/
def regionEU : RegionConfig :=
  { APIBase := "https://www.zohoapis.eu", MailBase := "https://mail.zoho.eu",
    AccountsServer := "https://accounts.zoho.eu" }

/-- A `config.GetRegion` that knows the region `eu` only. -/
def getRegionEU : String → Except Err RegionConfig :=
  fun name => if name = "eu" then .ok regionEU else .error "unknown region"

/-- The client that `NewClient` builds for the region `eu`, the token source `ts` and the
limiter 7. -/
def clientEU : Client :=
  { httpClient :=
      { Transport :=
          .RateLimitTransport (.oauth2Transport .DefaultTransport "ts") (NewRateLimiter 7)
        Timeout := 30 * Second }
    region := regionEU
    rateLimiter := NewRateLimiter 7 }

/-- An `http.NewRequestWithContext` that accepts every method and URL. -/
def newRequestOK : String → String → Option Err := fun _ _ => none

/-! # Theorems

## Pagination over a sliced source -/

theorem fetchLoop_slice {T : Type} (xs : List T) (p : Nat) (hp : 0 < p) :
    ∀ (fuel c : Nat) (results : List T) (calls : List (FetchCall T)),
      c ≤ xs.length → (xs.length - c) / p + 1 ≤ fuel →
      PageIterator.fetchLoop fuel
          ({ fetchFunc := sliceFetch xs, pageSize := (p : Int), current := (c : Int),
             done := false } : PageIterator Unit T) () results calls
        = { ret := some (results ++ xs.drop c, none)
            iter := { fetchFunc := sliceFetch xs, pageSize := (p : Int),
                      current := ((c + (xs.length - c) / p * p : Nat) : Int), done := true }
            state := ()
            calls := calls ++
              (List.range ((xs.length - c) / p + 1)).map (fun i => sliceCall xs p (c + i * p)) } := by
  intro fuel
  induction fuel with
  | zero => intro c results calls _ h; exact absurd h (Nat.not_succ_le_zero _)
  | succ fuel ih =>
    intro c results calls hc hfuel
    rw [PageIterator.fetchLoop]
    simp only [PageIterator.FetchPage, sliceFetch, Int.toNat_ofNat, Bool.false_eq_true, if_false,
      List.length_take, List.length_drop]
    by_cases hlt : xs.length - c < p
    · have hmin : min p (xs.length - c) = xs.length - c := by omega
      have hdiv : (xs.length - c) / p = 0 := Nat.div_eq_of_lt hlt
      have htake : List.take p (List.drop c xs) = List.drop c xs := by
        apply List.take_of_length_le
        simp only [List.length_drop]; omega
      simp [hmin, hlt, hdiv, htake, sliceCall, List.range_succ]
    · have hmin : min p (xs.length - c) = p := by omega
      have hnlt : ¬ ((p : Int) < (p : Int)) := by omega
      have hdiv : (xs.length - c) / p = (xs.length - (c + p)) / p + 1 := by
        have : xs.length - c = (xs.length - (c + p)) + p := by omega
        rw [this, Nat.add_div_right _ hp]
      simp only [hmin, hnlt, if_false]
      have hcast : ((c : Int) + (p : Int)) = ((c + p : Nat) : Int) := by push_cast; rfl
      rw [hcast, ih (c + p) _ _ (by omega) (by omega)]
      have hdrop : List.take p (List.drop c xs) ++ List.drop (c + p) xs = List.drop c xs := by
        rw [← List.drop_drop, List.take_append_drop]
      have hcur : c + p + (xs.length - (c + p)) / p * p = c + (xs.length - c) / p * p := by
        rw [hdiv]; ring
      rw [hcur, hdiv, List.append_assoc, hdrop, List.append_assoc]
      congr 2
      rw [List.range_succ_eq_map ((xs.length - (c + p)) / p + 1)]
      simp only [List.map_cons, List.map_map, List.singleton_append, Nat.zero_mul, Nat.add_zero]
      congr 1
      · apply List.map_congr_left
        intro i _
        have hi : c + p + i * p = c + (i + 1) * p := by ring
        simp only [Function.comp, Nat.succ_eq_add_one, hi]

theorem FetchAll_slice {T : Type} (xs : List T) (p : Nat) (hp : 0 < p) (fuel : Nat)
    (hfuel : xs.length / p + 1 ≤ fuel) :
    (NewPageIterator (sliceFetch xs) (p : Int)).FetchAll () fuel
      = { ret := some (xs, none)
          iter := { fetchFunc := sliceFetch xs, pageSize := (p : Int),
                    current := ((xs.length / p * p : Nat) : Int), done := true }
          state := ()
          calls := (List.range (xs.length / p + 1)).map (fun i => sliceCall xs p (i * p)) } := by
  have hpos : ¬ ((p : Int) ≤ 0) := by omega
  have h := fetchLoop_slice xs p hp fuel 0 [] [] (Nat.zero_le _) (by simpa using hfuel)
  simp only [Nat.cast_zero, Nat.sub_zero, List.drop_zero, List.nil_append, Nat.zero_add] at h
  simp only [PageIterator.FetchAll, NewPageIterator, hpos, if_false]
  exact h

/-! ## Offsets of the calls of `FetchAll`, for any fetch function -/

theorem chainFrom_head {T : Type} (limit o : Int) (cs : List (FetchCall T))
    (h : chainFrom limit o cs) : ∀ c, cs.head? = some c → c.start = o := by
  intro c hc
  cases cs with
  | nil => simp at hc
  | cons a as =>
    simp only [List.head?_cons, Option.some.injEq] at hc
    subst hc
    exact h.1

theorem chainFrom_limit {T : Type} (limit : Int) :
    ∀ (cs : List (FetchCall T)) (o : Int), chainFrom limit o cs → ∀ c ∈ cs, c.limit = limit := by
  intro cs
  induction cs with
  | nil => intro o _ c hc; simp at hc
  | cons a as ih =>
    intro o h c hc
    rcases List.mem_cons.1 hc with rfl | hmem
    · exact h.2.1
    · exact ih _ h.2.2 c hmem

theorem chainFrom_next {T : Type} (limit : Int) :
    ∀ (cs : List (FetchCall T)) (o : Int), chainFrom limit o cs →
      ∀ (i : Nat) (a b : FetchCall T), cs[i]? = some a → cs[i + 1]? = some b →
        b.start = a.start + a.count := by
  intro cs
  induction cs with
  | nil => intro o _ i a b ha; simp at ha
  | cons c cs ih =>
    intro o h i a b ha hb
    cases i with
    | zero =>
      simp only [List.getElem?_cons_zero, Option.some.injEq] at ha
      subst ha
      have hb1 : cs[0]? = some b := by simpa using hb
      have hhead : cs.head? = some b := by simpa [List.head?_eq_getElem?] using hb1
      rw [chainFrom_head limit _ cs h.2.2 b hhead, h.1]
    | succ i =>
      have ha1 : cs[i]? = some a := by simpa using ha
      have hb1 : cs[i + 1]? = some b := by simpa using hb
      exact ih _ h.2.2 i a b ha1 hb1

theorem fetchLoop_calls {σ T : Type} :
    ∀ (fuel : Nat) (p : PageIterator σ T) (s : σ) (results : List T) (calls : List (FetchCall T)),
      ∃ new, (p.fetchLoop fuel s results calls).calls = calls ++ new ∧
        chainFrom p.pageSize p.current new := by
  intro fuel
  induction fuel with
  | zero =>
    intro p s results calls
    refine ⟨[], ?_, trivial⟩
    rw [PageIterator.fetchLoop]
    split <;> simp
  | succ fuel ih =>
    intro p s results calls
    rw [PageIterator.fetchLoop]
    split
    · exact ⟨[], by simp, trivial⟩
    · simp only
      split
      · next err s1 _ => exact ⟨[⟨p.current, p.pageSize, .error err⟩], rfl, rfl, rfl, trivial⟩
      · next page s1 _ =>
        split
        · exact ⟨[⟨p.current, p.pageSize, .ok page⟩], rfl, rfl, rfl, trivial⟩
        · obtain ⟨new, hnew, hchain⟩ :=
            ih { p with current := p.current + page.length } s1 (results ++ page)
              (calls ++ [⟨p.current, p.pageSize, .ok page⟩])
          refine ⟨⟨p.current, p.pageSize, .ok page⟩ :: new, ?_, rfl, rfl, ?_⟩
          · rw [hnew, List.append_assoc, List.singleton_append]
          · simpa [FetchCall.count] using hchain

/-- C1. Pagination completeness: over the source that returns
`xs[offset : min(offset+limit, len xs)]`, with a positive page size `p`, `FetchAll` on a fresh
iterator returns exactly `xs` (every item once, in the original order) and a nil error, as soon
as the loop is given the `len xs / p + 1` iterations it needs. -/
theorem C1_pagination_completeness {T : Type} (xs : List T) (p : Int) (hp : 0 < p) (fuel : Nat)
    (hfuel : xs.length / p.toNat + 1 ≤ fuel) :
    ((NewPageIterator (sliceFetch xs) p).FetchAll () fuel).ret = some (xs, none) := by
  obtain ⟨n, rfl⟩ := Int.eq_ofNat_of_zero_le (le_of_lt hp)
  have hn : 0 < n := by exact_mod_cast hp
  rw [FetchAll_slice xs n hn fuel (by simpa using hfuel)]

/-- C1, at 120 items and page size 50: three iterations suffice, all 120 items come back in
order, and the pages hold 50, 50 and 20 items. -/
theorem C1_pagination_completeness_witness :
    (0 : Int) < 50 ∧ (List.range 120).length / (50 : Int).toNat + 1 ≤ 3 ∧
    ((NewPageIterator (sliceFetch (List.range 120)) 50).FetchAll () 3).ret
      = some (List.range 120, none) ∧
    ((NewPageIterator (sliceFetch (List.range 120)) 50).FetchAll () 3).calls.map FetchCall.count
      = [50, 50, 20] :=
  ⟨by decide, by decide,
   C1_pagination_completeness (List.range 120) 50 (by decide) 3 (by decide), by decide⟩

/-- C2. Pagination call count: over the sliced source of `n = len xs` items with a positive page
size `p`, `FetchAll` on a fresh iterator calls the fetch function exactly `n / p + 1` times, the
`i`-th call at offset `i * p` with limit `p`, returning `min p (n - i * p)` items; when `p`
divides `n` the last call returns no item. -/
theorem C2_pagination_call_count {T : Type} (xs : List T) (p : Int) (hp : 0 < p) (fuel : Nat)
    (hfuel : xs.length / p.toNat + 1 ≤ fuel) :
    (((NewPageIterator (sliceFetch xs) p).FetchAll () fuel).calls.length
        = xs.length / p.toNat + 1) ∧
    (((NewPageIterator (sliceFetch xs) p).FetchAll () fuel).calls.map (fun c => c.start)
        = (List.range (xs.length / p.toNat + 1)).map (fun (i : Nat) => (i : Int) * p)) ∧
    (∀ c ∈ ((NewPageIterator (sliceFetch xs) p).FetchAll () fuel).calls, c.limit = p) ∧
    (((NewPageIterator (sliceFetch xs) p).FetchAll () fuel).calls.map FetchCall.count
        = (List.range (xs.length / p.toNat + 1)).map
            (fun i => min p.toNat (xs.length - i * p.toNat))) ∧
    (p.toNat ∣ xs.length →
      ∃ c, ((NewPageIterator (sliceFetch xs) p).FetchAll () fuel).calls.getLast? = some c ∧
        c.result = .ok []) := by
  obtain ⟨n, rfl⟩ := Int.eq_ofNat_of_zero_le (le_of_lt hp)
  have hn : 0 < n := by exact_mod_cast hp
  rw [FetchAll_slice xs n hn fuel (by simpa using hfuel)]
  simp only [Int.toNat_ofNat]
  refine ⟨by simp, ?_, ?_, ?_, ?_⟩
  · rw [List.map_map]
    apply List.map_congr_left
    intro i _
    simp [sliceCall]
  · intro c hc
    obtain ⟨i, _, rfl⟩ := List.mem_map.1 hc
    rfl
  · simp [sliceCall, FetchCall.count, Function.comp_def]
  · intro hdvd
    refine ⟨sliceCall xs n (xs.length / n * n), ?_, ?_⟩
    · simp [List.range_succ]
    · simp [sliceCall, Nat.div_mul_cancel hdvd]

/-- C2, at 100 items and page size 50: three calls, at offsets 0, 50 and 100, returning 50, 50
and 0 items. -/
theorem C2_pagination_call_count_witness :
    (0 : Int) < 50 ∧ (List.range 100).length / (50 : Int).toNat + 1 ≤ 3 ∧
    ((NewPageIterator (sliceFetch (List.range 100)) 50).FetchAll () 3).calls.length = 3 ∧
    ((NewPageIterator (sliceFetch (List.range 100)) 50).FetchAll () 3).calls.map
        (fun c => c.start) = [0, 50, 100] ∧
    ((NewPageIterator (sliceFetch (List.range 100)) 50).FetchAll () 3).calls.map FetchCall.count
      = [50, 50, 0] :=
  ⟨by decide, by decide,
   (C2_pagination_call_count (List.range 100) 50 (by decide) 3 (by decide)).1,
   by decide, by decide⟩

/-- C10. Offset advances by the items actually returned: for every fetch function `f` (stateful
or not, returning any number of items), every requested page size and every length of run of
`FetchAll` on a fresh iterator, the first call is made at offset 0, every call passes the
configured page size as its limit, and each later call is made at the offset of the call before
it plus the number of items that call returned. -/
theorem C10_offset_advances_by_returned {σ T : Type}
    (f : Int → Int → σ → Except Err (List T) × σ) (pageSize : Int) (s : σ) (fuel : Nat) :
    (∀ c, ((NewPageIterator f pageSize).FetchAll s fuel).calls.head? = some c → c.start = 0) ∧
    (∀ c ∈ ((NewPageIterator f pageSize).FetchAll s fuel).calls,
        c.limit = (NewPageIterator f pageSize).pageSize) ∧
    (∀ (i : Nat) (a b : FetchCall T),
        ((NewPageIterator f pageSize).FetchAll s fuel).calls[i]? = some a →
        ((NewPageIterator f pageSize).FetchAll s fuel).calls[i + 1]? = some b →
        b.start = a.start + a.count) := by
  obtain ⟨new, hnew, hchain⟩ := fetchLoop_calls fuel (NewPageIterator f pageSize) s [] []
  have hcalls : ((NewPageIterator f pageSize).FetchAll s fuel).calls = new := by
    simpa [PageIterator.FetchAll] using hnew
  rw [hcalls]
  have h0 : (NewPageIterator f pageSize).current = 0 := rfl
  rw [h0] at hchain
  exact ⟨chainFrom_head _ _ _ hchain, chainFrom_limit _ _ _ hchain, chainFrom_next _ _ _ hchain⟩

/-- C10, at a fetch function that returns 3 items per call although the limit is 2: the calls
are made at offsets 0, 3 and 6 (not 0, 2 and 4), each with limit 2. -/
theorem C10_offset_advances_by_returned_witness :
    ((NewPageIterator overFetch 2).FetchAll 0 5).calls.map
        (fun c => (c.start, c.limit, c.count)) = [(0, 2, 3), (3, 2, 3), (6, 2, 0)] ∧
    ((NewPageIterator overFetch 2).FetchAll 0 5).ret = some ([0, 1, 2, 3, 4, 5], none) ∧
    (∀ c ∈ ((NewPageIterator overFetch 2).FetchAll 0 5).calls,
        c.limit = (NewPageIterator overFetch 2).pageSize) :=
  ⟨by decide, by decide, (C10_offset_advances_by_returned overFetch 2 0 5).2.1⟩

/-! ## One iteration of the retry loop -/

theorem retryLoop_failure (env : Env) (fuel k j : Nat) (e : Err)
    (h : env.baseRoundTrip k = .failure e) :
    retryLoop env (fuel + 1) k j
      = { ret := some (none, some e), trace := [.send k (.failure e)] } := by
  simp only [retryLoop, h]

theorem retryLoop_pass (env : Env) (fuel k j : Nat) (r : Response)
    (h : env.baseRoundTrip k = .response r) (hs : r.StatusCode ≠ StatusTooManyRequests) :
    retryLoop env (fuel + 1) k j
      = { ret := some (some r, none), trace := [.send k (.response r)] } := by
  simp only [retryLoop, h, hs, ne_eq, not_false_eq_true, if_true]

theorem retryLoop_exhausted (env : Env) (fuel k j : Nat) (r : Response)
    (h : env.baseRoundTrip k = .response r) (hk : maxRetries ≤ k) :
    retryLoop env (fuel + 1) k j
      = { ret := some (some r, none), trace := [.send k (.response r)] } := by
  simp only [retryLoop, h, ge_iff_le, hk, if_true, ite_self]

theorem retryLoop_retryAfter (env : Env) (fuel k j : Nat) (r : Response)
    (h : env.baseRoundTrip k = .response r) (hs : r.StatusCode = StatusTooManyRequests)
    (hk : k < maxRetries) (hw : 0 < retryAfterWait env k r) :
    retryLoop env (fuel + 1) k j
      = match env.ctxDone k (retryAfterWait env k r) with
        | some err =>
          { ret := some (none, some err)
            trace := [.send k (.response r), .drainClose k,
              .wait (retryAfterWait env k r) (some err)] }
        | none =>
          (retryLoop env fuel (k + 1) j).after
            [.send k (.response r), .drainClose k, .wait (retryAfterWait env k r) none] := by
  have hk1 : ¬ maxRetries ≤ k := Nat.not_le.2 hk
  simp only [retryLoop, h, hs, ne_eq, not_true_eq_false, if_false, ge_iff_le, hk1, gt_iff_lt, hw,
    if_true, List.cons_append, List.nil_append]

theorem retryLoop_backoff (env : Env) (fuel k j : Nat) (r : Response)
    (h : env.baseRoundTrip k = .response r) (hs : r.StatusCode = StatusTooManyRequests)
    (hk : k < maxRetries) (hw : retryAfterWait env k r ≤ 0) :
    retryLoop env (fuel + 1) k j
      = if env.nextBackOff j = Stop then
          { ret := some (some r.drainClose, none)
            trace := [.send k (.response r), .drainClose k, .nextBackOff (env.nextBackOff j)] }
        else
          match env.ctxDone k (env.nextBackOff j) with
          | some err =>
            { ret := some (none, some err)
              trace := [.send k (.response r), .drainClose k, .nextBackOff (env.nextBackOff j),
                .wait (env.nextBackOff j) (some err)] }
          | none =>
            (retryLoop env fuel (k + 1) (j + 1)).after
              [.send k (.response r), .drainClose k, .nextBackOff (env.nextBackOff j),
                .wait (env.nextBackOff j) none] := by
  have hk1 : ¬ maxRetries ≤ k := Nat.not_le.2 hk
  have hw1 : ¬ (0 < retryAfterWait env k r) := not_lt.2 hw
  simp only [retryLoop, h, hs, ne_eq, not_true_eq_false, if_false, ge_iff_le, hk1, gt_iff_lt, hw1,
    List.cons_append, List.nil_append]


/-! ## The shape of a run of the retry loop -/

theorem Run.after_after (r : Run) (a b : List Event) :
    (r.after a).after b = r.after (b ++ a) := by
  simp [Run.after]

theorem Run.after_nil (r : Run) : r.after [] = r := by
  simp [Run.after]

/-- An iteration starts with a send; after it come events that are neither sends nor
acquisitions, and then either the loop returns or the next iteration starts. -/
theorem retryLoop_shape (env : Env) (fuel k j : Nat) :
    ∃ evs : List Event, (∀ e ∈ evs, e.isSend = false ∧ e.isAcquire = false) ∧
      (((retryLoop env (fuel + 1) k j).trace = .send k (env.baseRoundTrip k) :: evs ∧
          (retryLoop env (fuel + 1) k j).ret ≠ none) ∨
        ∃ j2, k < maxRetries ∧ retryLoop env (fuel + 1) k j
          = (retryLoop env fuel (k + 1) j2).after (.send k (env.baseRoundTrip k) :: evs)) := by
  cases hres : env.baseRoundTrip k with
  | failure e =>
    exact ⟨[], by simp, Or.inl (by simp [retryLoop_failure env fuel k j e hres])⟩
  | response r =>
    by_cases hs : r.StatusCode = StatusTooManyRequests
    · by_cases hk : k < maxRetries
      · by_cases hw : 0 < retryAfterWait env k r
        · rw [retryLoop_retryAfter env fuel k j r hres hs hk hw]
          cases hc : env.ctxDone k (retryAfterWait env k r) with
          | some err =>
            exact ⟨[.drainClose k, .wait (retryAfterWait env k r) (some err)],
              by simp [Event.isSend, Event.isAcquire], Or.inl (by simp)⟩
          | none =>
            exact ⟨[.drainClose k, .wait (retryAfterWait env k r) none],
              by simp [Event.isSend, Event.isAcquire], Or.inr ⟨j, hk, rfl⟩⟩
        · rw [retryLoop_backoff env fuel k j r hres hs hk (not_lt.1 hw)]
          by_cases hstop : env.nextBackOff j = Stop
          · exact ⟨[.drainClose k, .nextBackOff (env.nextBackOff j)],
              by simp [Event.isSend, Event.isAcquire], Or.inl (by simp [hstop])⟩
          · cases hc : env.ctxDone k (env.nextBackOff j) with
            | some err =>
              exact ⟨[.drainClose k, .nextBackOff (env.nextBackOff j),
                  .wait (env.nextBackOff j) (some err)],
                by simp [Event.isSend, Event.isAcquire], Or.inl (by simp [hstop])⟩
            | none =>
              exact ⟨[.drainClose k, .nextBackOff (env.nextBackOff j),
                  .wait (env.nextBackOff j) none],
                by simp [Event.isSend, Event.isAcquire],
                Or.inr ⟨j + 1, hk, by simp [hstop]⟩⟩
      · exact ⟨[], by simp,
          Or.inl (by simp [retryLoop_exhausted env fuel k j r hres (Nat.not_lt.1 hk)])⟩
    · exact ⟨[], by simp, Or.inl (by simp [retryLoop_pass env fuel k j r hres hs])⟩

/-- Every send in the trace of the loop is the start of an iteration: what the loop does from
there on is a run of the loop from that iteration, with the sender answering as recorded. -/
theorem retryLoop_send_suffix (env : Env) :
    ∀ (fuel k j i k1 : Nat) (res : SendResult),
      (retryLoop env fuel k j).trace[i]? = some (.send k1 res) →
      ∃ fuel1 j1, k ≤ k1 ∧ env.baseRoundTrip k1 = res ∧
        retryLoop env fuel k j
          = (retryLoop env (fuel1 + 1) k1 j1).after ((retryLoop env fuel k j).trace.take i) := by
  intro fuel
  induction fuel with
  | zero => intro k j i k1 res h; simp [retryLoop] at h
  | succ fuel ih =>
    intro k j i k1 res h
    cases i with
    | zero =>
      obtain ⟨evs, _, hshape⟩ := retryLoop_shape env fuel k j
      have h0 : Event.send k (env.baseRoundTrip k) = Event.send k1 res := by
        rcases hshape with ⟨ht, _⟩ | ⟨j2, _, hr⟩
        · rw [ht] at h; simpa using h
        · rw [hr] at h; simpa [Run.after] using h
      injection h0 with hk hr
      subst hk
      exact ⟨fuel, j, le_refl _, hr, by simp [Run.after_nil]⟩
    | succ i =>
      obtain ⟨evs, hevs, hshape⟩ := retryLoop_shape env fuel k j
      have hnot : ¬ (i < evs.length) := by
        intro hlt
        have hmem : evs[i] ∈ evs := List.getElem_mem hlt
        have hget : evs[i]? = some (.send k1 res) := by
          rcases hshape with ⟨ht, _⟩ | ⟨j2, _, hr⟩
          · rw [ht] at h
            simpa using h
          · rw [hr] at h
            simp only [Run.after, List.cons_append, List.getElem?_cons_succ] at h
            rwa [List.getElem?_append_left hlt] at h
        rw [List.getElem?_eq_getElem hlt] at hget
        have := (hevs _ hmem).1
        rw [Option.some.inj hget] at this
        simp [Event.isSend] at this
      rcases hshape with ⟨ht, _⟩ | ⟨j2, _, hr⟩
      · rw [ht] at h
        simp only [List.getElem?_cons_succ] at h
        have := List.getElem?_eq_some_iff.1 h
        exact absurd this.1 hnot
      · have hrec : (retryLoop env fuel (k + 1) j2).trace[i - evs.length]?
            = some (.send k1 res) := by
          rw [hr] at h
          simp only [Run.after, List.cons_append, List.getElem?_cons_succ] at h
          rwa [List.getElem?_append_right (Nat.not_lt.1 hnot)] at h
        obtain ⟨fuel1, j1, hle, hres, heq⟩ := ih (k + 1) j2 (i - evs.length) k1 res hrec
        refine ⟨fuel1, j1, by omega, hres, ?_⟩
        have htake : (retryLoop env (fuel + 1) k j).trace.take (i + 1)
            = (Event.send k (env.baseRoundTrip k) :: evs)
              ++ (retryLoop env fuel (k + 1) j2).trace.take (i - evs.length) := by
          rw [hr]
          simp only [Run.after, List.cons_append, List.take_succ_cons]
          rw [List.take_append_eq_append_take, List.take_of_length_le (Nat.not_lt.1 hnot)]
        rw [htake, ← Run.after_after, ← heq, hr]


/-- A cancelled wait is the last thing the loop does, and the loop then returns the
cancellation error without a response. -/
theorem retryLoop_cancel (env : Env) :
    ∀ (fuel k j i : Nat) (d : Duration) (e : Err),
      (retryLoop env fuel k j).trace[i]? = some (.wait d (some e)) →
      (retryLoop env fuel k j).ret = some (none, some e) ∧
        (retryLoop env fuel k j).trace.length = i + 1 := by
  intro fuel
  induction fuel with
  | zero => intro k j i d e h; simp [retryLoop] at h
  | succ fuel ih =>
    intro k j i d e h
    cases hres : env.baseRoundTrip k with
    | failure e1 =>
      rw [retryLoop_failure env fuel k j e1 hres] at h
      rcases i with _ | i <;> simp at h
    | response r =>
      by_cases hs : r.StatusCode = StatusTooManyRequests
      · by_cases hk : k < maxRetries
        · by_cases hw : 0 < retryAfterWait env k r
          · rw [retryLoop_retryAfter env fuel k j r hres hs hk hw] at h ⊢
            cases hc : env.ctxDone k (retryAfterWait env k r) with
            | some err =>
              rw [hc] at h
              rcases i with _ | _ | _ | i <;> simp at h
              obtain ⟨_, rfl⟩ := h
              simp
            | none =>
              rw [hc] at h
              rcases i with _ | _ | _ | i <;> simp [Run.after] at h
              obtain ⟨hret, hlen⟩ := ih (k + 1) j i d e h
              simp only [Run.after, hret, List.cons_append, List.nil_append, List.length_cons,
                hlen, and_self]
          · rw [retryLoop_backoff env fuel k j r hres hs hk (not_lt.1 hw)] at h ⊢
            by_cases hstop : env.nextBackOff j = Stop
            · rw [if_pos hstop] at h
              rcases i with _ | _ | _ | i <;> simp at h
            · rw [if_neg hstop] at h ⊢
              cases hc : env.ctxDone k (env.nextBackOff j) with
              | some err =>
                rw [hc] at h
                rcases i with _ | _ | _ | _ | i <;> simp at h
                obtain ⟨_, rfl⟩ := h
                simp
              | none =>
                rw [hc] at h
                rcases i with _ | _ | _ | _ | i <;> simp [Run.after] at h
                obtain ⟨hret, hlen⟩ := ih (k + 1) (j + 1) i d e h
                simp only [Run.after, hret, List.cons_append, List.nil_append, List.length_cons,
                  hlen, and_self]
        · rw [retryLoop_exhausted env fuel k j r hres (Nat.not_lt.1 hk)] at h
          rcases i with _ | i <;> simp at h
      · rw [retryLoop_pass env fuel k j r hres hs] at h
        rcases i with _ | i <;> simp at h

/-- The loop returns within `maxRetries + 1` iterations, counted from `retryCount = 0`. -/
theorem retryLoop_returns (env : Env) :
    ∀ (fuel k j : Nat), 0 < fuel → maxRetries + 1 ≤ fuel + k →
      (retryLoop env fuel k j).ret ≠ none := by
  intro fuel
  induction fuel with
  | zero => intro k j h0 _; exact absurd h0 (Nat.lt_irrefl 0)
  | succ fuel ih =>
    intro k j _ h
    obtain ⟨evs, _, hshape⟩ := retryLoop_shape env fuel k j
    rcases hshape with ⟨_, hret⟩ | ⟨j2, hk, hr⟩
    · exact hret
    · rw [hr]
      exact ih (k + 1) j2 (by omega) (by omega)

/-! ## Runs of `RoundTrip` -/

theorem RoundTrip_cancelled (env : Env) (fuel : Nat) (e : Err) (h : env.limiterWait = some e) :
    RoundTrip env fuel = { ret := some (none, some e), trace := [.acquire (some e)] } := by
  simp only [RoundTrip, h]

theorem RoundTrip_acquired (env : Env) (fuel : Nat) (h : env.limiterWait = none) :
    RoundTrip env fuel = (retryLoop env fuel 0 0).after [.acquire none] := by
  simp only [RoundTrip, h]

/-- A `RoundTrip` call returns: four iterations of the loop are always enough. -/
theorem RoundTrip_returns (env : Env) (fuel : Nat) (h : maxRetries + 1 ≤ fuel) :
    (RoundTrip env fuel).ret ≠ none := by
  cases hl : env.limiterWait with
  | some e => simp [RoundTrip_cancelled env fuel e hl]
  | none =>
    rw [RoundTrip_acquired env fuel hl]
    exact retryLoop_returns env fuel 0 0 (by simp only [maxRetries] at h; omega) (by omega)

/-- Every send in the trace of `RoundTrip` starts an iteration of the retry loop, on a limiter
that has granted its token. -/
theorem RoundTrip_send_suffix (env : Env) (fuel i k : Nat) (res : SendResult)
    (h : (RoundTrip env fuel).trace[i]? = some (.send k res)) :
    env.limiterWait = none ∧ env.baseRoundTrip k = res ∧
      ∃ fuel1 j1, RoundTrip env fuel
        = (retryLoop env (fuel1 + 1) k j1).after ((RoundTrip env fuel).trace.take i) := by
  cases hl : env.limiterWait with
  | some e =>
    rw [RoundTrip_cancelled env fuel e hl] at h
    rcases i with _ | i <;> simp at h
  | none =>
    rw [RoundTrip_acquired env fuel hl] at h ⊢
    rcases i with _ | i
    · simp [Run.after] at h
    · have h1 : (retryLoop env fuel 0 0).trace[i]? = some (.send k res) := by
        simpa [Run.after] using h
      obtain ⟨fuel1, j1, _, hres, heq⟩ := retryLoop_send_suffix env fuel 0 0 i k res h1
      refine ⟨rfl, hres, fuel1, j1, ?_⟩
      have htake : ((retryLoop env fuel 0 0).after [.acquire none]).trace.take (i + 1)
          = [Event.acquire none] ++ (retryLoop env fuel 0 0).trace.take i := by
        simp [Run.after]
      rw [htake, ← Run.after_after, ← heq]

theorem take_length_of_getElem? {α : Type} (l : List α) (i : Nat) (a : α)
    (h : l[i]? = some a) : (l.take i).length = i := by
  have := (List.getElem?_eq_some_iff.1 h).1
  simp only [List.length_take]
  omega

/-- C7. Non-429 pass-through: whenever a send of `RoundTrip` is answered by a response whose
status is not 429, `RoundTrip` returns exactly that response (its body as the sender delivered
it) with a nil error, and that send is the last call it makes: no wait, no draining or closing
of the body, no further send. -/
theorem C7_non429_pass_through (env : Env) (fuel i k : Nat) (r : Response)
    (h : (RoundTrip env fuel).trace[i]? = some (.send k (.response r)))
    (hs : r.StatusCode ≠ StatusTooManyRequests) :
    (RoundTrip env fuel).ret = some (some r, none) ∧
      (RoundTrip env fuel).trace.length = i + 1 := by
  obtain ⟨_, hres, fuel1, j1, heq⟩ := RoundTrip_send_suffix env fuel i k _ h
  have hlen := take_length_of_getElem? _ i _ h
  rw [retryLoop_pass env fuel1 k j1 r hres hs] at heq
  rw [heq]
  simp only [Run.after, List.length_append, List.length_singleton, true_and]
  rw [hlen]

/-- C8. Transport failures are never retried: whenever a send of `RoundTrip` (the first or a
retry) fails with a transport error, `RoundTrip` returns no response together with exactly that
error, and the failed send is the last call it makes: no wait and no further send. -/
theorem C8_transport_failure_not_retried (env : Env) (fuel i k : Nat) (e : Err)
    (h : (RoundTrip env fuel).trace[i]? = some (.send k (.failure e))) :
    (RoundTrip env fuel).ret = some (none, some e) ∧
      (RoundTrip env fuel).trace.length = i + 1 := by
  obtain ⟨_, hres, fuel1, j1, heq⟩ := RoundTrip_send_suffix env fuel i k _ h
  have hlen := take_length_of_getElem? _ i _ h
  rw [retryLoop_failure env fuel1 k j1 e hres] at heq
  rw [heq]
  simp only [Run.after, List.length_append, List.length_singleton, true_and]
  rw [hlen]

/-- C9. Cancellation correctness: if the limiter acquisition is cancelled, `RoundTrip` returns
no response together with that error and makes no send at all; and whenever a wait (after a
`Retry-After` directive or after the backoff) is cancelled, `RoundTrip` returns no response
together with the cancellation error, that wait being the last thing it does (no further
send). -/
theorem C9_cancellation (env : Env) (fuel : Nat) :
    (∀ e, env.limiterWait = some e →
      (RoundTrip env fuel).ret = some (none, some e) ∧ sendCount (RoundTrip env fuel).trace = 0) ∧
    (∀ (i : Nat) (d : Duration) (e : Err),
      (RoundTrip env fuel).trace[i]? = some (.wait d (some e)) →
      (RoundTrip env fuel).ret = some (none, some e) ∧
        (RoundTrip env fuel).trace.length = i + 1) := by
  constructor
  · intro e he
    rw [RoundTrip_cancelled env fuel e he]
    simp [sendCount, Event.isSend]
  · intro i d e h
    cases hl : env.limiterWait with
    | some e1 =>
      rw [RoundTrip_cancelled env fuel e1 hl] at h
      rcases i with _ | i <;> simp at h
    | none =>
      rw [RoundTrip_acquired env fuel hl] at h ⊢
      rcases i with _ | i
      · simp [Run.after] at h
      · have h1 : (retryLoop env fuel 0 0).trace[i]? = some (.wait d (some e)) := by
          simpa [Run.after] using h
        obtain ⟨hret, hlen⟩ := retryLoop_cancel env fuel 0 0 i d e h1
        simp [Run.after, hret, hlen]


theorem suffix_facts (R X : Run) (i : Nat) (hlen : (R.trace.take i).length = i)
    (heq : R = X.after (R.trace.take i)) :
    R.ret = X.ret ∧ R.trace.length = i + X.trace.length ∧
      ∀ n, R.trace[i + n]? = X.trace[n]? := by
  have hret : R.ret = X.ret := by
    have := congrArg Run.ret heq
    simpa [Run.after] using this
  have ht : R.trace = R.trace.take i ++ X.trace := congrArg Run.trace heq
  refine ⟨hret, ?_, ?_⟩
  · have := congrArg List.length ht
    rw [List.length_append, hlen] at this
    exact this
  · intro n
    have hle : (R.trace.take i).length ≤ i + n := by omega
    have := @List.getElem?_append_right _ _ X.trace _ hle
    rw [← ht, hlen, Nat.add_sub_cancel_left] at this
    exact this

theorem retryAfterWait_absent (env : Env) (k : Nat) (r : Response) (h : r.RetryAfter = none) :
    retryAfterWait env k r = 0 := by
  simp [retryAfterWait, Response.headerRetryAfter, h]

theorem retryAfterWait_unparseable (env : Env) (k : Nat) (r : Response)
    (ha : Atoi r.headerRetryAfter = none) (hd : env.parseRFC1123 r.headerRetryAfter = none) :
    retryAfterWait env k r = 0 := by
  simp only [retryAfterWait, ha, hd]
  split <;> rfl

/-- C6. Malformed or non-positive server delay falls back to backoff: whenever a send of
`RoundTrip` made while retries remain (`retryCount < 3`) is answered by a 429 whose
`Retry-After` header is absent, or parses neither as an integer nor as an RFC1123 date, or
yields a computed wait that is zero or negative, `RoundTrip` drains and closes the body and then
asks the backoff for the duration `d`. If `d` is `Stop` it returns the (drained) 429 response
with a nil error; otherwise it waits exactly `d`, and returns an error only if that wait is
cancelled. -/
theorem C6_malformed_delay_uses_backoff (env : Env) (fuel i k : Nat) (r : Response)
    (h : (RoundTrip env fuel).trace[i]? = some (.send k (.response r)))
    (hs : r.StatusCode = StatusTooManyRequests) (hk : k < maxRetries)
    (hw : r.RetryAfter = none ∨
      (Atoi r.headerRetryAfter = none ∧ env.parseRFC1123 r.headerRetryAfter = none) ∨
      retryAfterWait env k r ≤ 0) :
    (RoundTrip env fuel).trace[i + 1]? = some (.drainClose k) ∧
    ∃ j, (RoundTrip env fuel).trace[i + 2]? = some (.nextBackOff (env.nextBackOff j)) ∧
      (env.nextBackOff j = Stop →
        (RoundTrip env fuel).ret = some (some r.drainClose, none) ∧
          (RoundTrip env fuel).trace.length = i + 3) ∧
      (env.nextBackOff j ≠ Stop →
        ∃ c, (RoundTrip env fuel).trace[i + 3]? = some (.wait (env.nextBackOff j) c) ∧
          ∀ e, c = some e → (RoundTrip env fuel).ret = some (none, some e)) := by
  have hw0 : retryAfterWait env k r ≤ 0 := by
    rcases hw with h1 | ⟨h1, h2⟩ | h1
    · exact le_of_eq (retryAfterWait_absent env k r h1)
    · exact le_of_eq (retryAfterWait_unparseable env k r h1 h2)
    · exact h1
  obtain ⟨_, hres, fuel1, j1, heq⟩ := RoundTrip_send_suffix env fuel i k _ h
  have hlen := take_length_of_getElem? _ i _ h
  obtain ⟨hret, hlength, hget⟩ := suffix_facts _ _ i hlen heq
  rw [retryLoop_backoff env fuel1 k j1 r hres hs hk hw0] at hret hlength hget
  by_cases hstop : env.nextBackOff j1 = Stop
  · simp only [hstop, if_true] at hret hlength hget
    refine ⟨by rw [hget 1]; rfl, j1, by rw [hget 2, hstop]; rfl, ?_, ?_⟩
    · intro _
      exact ⟨hret, by rw [hlength]; rfl⟩
    · intro hne
      exact absurd hstop hne
  · simp only [hstop, if_false] at hret hlength hget
    cases hc : env.ctxDone k (env.nextBackOff j1) with
    | some err =>
      simp only [hc] at hret hlength hget
      refine ⟨by rw [hget 1]; rfl, j1, by rw [hget 2]; rfl, fun hst => absurd hst hstop, ?_⟩
      intro _
      refine ⟨some err, by rw [hget 3]; rfl, ?_⟩
      intro e he
      rw [hret, Option.some.inj he]
    | none =>
      simp only [hc] at hret hlength hget
      refine ⟨by rw [hget 1]; rfl, j1, by rw [hget 2]; rfl, fun hst => absurd hst hstop, ?_⟩
      intro _
      refine ⟨none, by rw [hget 3]; simp [Run.after], ?_⟩
      intro e he
      cases he

/-- C6, at a first 429 followed by a 200, the 429 carrying no `Retry-After`, then
`Retry-After: soon`, `Retry-After: 0`, `Retry-After: -5` and a date in the past: each time the
body is drained, the backoff is asked and hands out one second, that second is waited, and the
200 comes back without error. -/
theorem C6_malformed_delay_uses_backoff_witness :
    ((RoundTrip env429Then200 5).trace[1]? = some (.send 0 (.response resp429)) ∧
      resp429.RetryAfter = none ∧
      (RoundTrip env429Then200 5).trace[1 + 1]? = some (.drainClose 0)) ∧
    ((RoundTrip (envRetryAfterThen200 "soon") 5).trace[1]?
          = some (.send 0 (.response (resp429After "soon"))) ∧
      Atoi (resp429After "soon").headerRetryAfter = none ∧
      (RoundTrip (envRetryAfterThen200 "soon") 5).trace[1 + 1]? = some (.drainClose 0)) ∧
    (retryAfterWait (envRetryAfterThen200 "0") 0 (resp429After "0") = 0 ∧
      (RoundTrip (envRetryAfterThen200 "0") 5).trace[1 + 1]? = some (.drainClose 0)) ∧
    (retryAfterWait (envRetryAfterThen200 "-5") 0 (resp429After "-5") = -5 * Second ∧
      (RoundTrip (envRetryAfterThen200 "-5") 5).trace[1 + 1]? = some (.drainClose 0)) ∧
    (retryAfterWait envPastDate 0 (resp429After "Mon, 02 Jan 2006 15:04:05 GMT")
        = -563785755 * Second ∧
      (RoundTrip envPastDate 5).trace[1 + 1]? = some (.drainClose 0)) ∧
    (RoundTrip env429Then200 5).trace
      = [.acquire none, .send 0 (.response resp429), .drainClose 0,
          .nextBackOff Second, .wait Second none, .send 1 (.response resp200)] ∧
    (RoundTrip (envRetryAfterThen200 "soon") 5).trace
      = [.acquire none, .send 0 (.response (resp429After "soon")), .drainClose 0,
          .nextBackOff Second, .wait Second none, .send 1 (.response resp200)] ∧
    (RoundTrip (envRetryAfterThen200 "0") 5).trace
      = [.acquire none, .send 0 (.response (resp429After "0")), .drainClose 0,
          .nextBackOff Second, .wait Second none, .send 1 (.response resp200)] ∧
    (RoundTrip (envRetryAfterThen200 "-5") 5).trace
      = [.acquire none, .send 0 (.response (resp429After "-5")), .drainClose 0,
          .nextBackOff Second, .wait Second none, .send 1 (.response resp200)] ∧
    (RoundTrip envPastDate 5).trace
      = [.acquire none, .send 0 (.response (resp429After "Mon, 02 Jan 2006 15:04:05 GMT")),
          .drainClose 0, .nextBackOff Second, .wait Second none, .send 1 (.response resp200)] ∧
    (RoundTrip (envRetryAfterThen200 "soon") 5).ret = some (some resp200, none) :=
  ⟨⟨by decide, rfl,
    (C6_malformed_delay_uses_backoff env429Then200 5 1 0 resp429
      (by decide) (by decide) (by decide) (Or.inl rfl)).1⟩,
   ⟨by decide, by decide,
    (C6_malformed_delay_uses_backoff (envRetryAfterThen200 "soon") 5 1 0 (resp429After "soon")
      (by decide) (by decide) (by decide) (Or.inr (Or.inl ⟨by decide, rfl⟩))).1⟩,
   ⟨by decide,
    (C6_malformed_delay_uses_backoff (envRetryAfterThen200 "0") 5 1 0 (resp429After "0")
      (by decide) (by decide) (by decide) (Or.inr (Or.inr (by decide)))).1⟩,
   ⟨by decide,
    (C6_malformed_delay_uses_backoff (envRetryAfterThen200 "-5") 5 1 0 (resp429After "-5")
      (by decide) (by decide) (by decide) (Or.inr (Or.inr (by decide)))).1⟩,
   ⟨by decide,
    (C6_malformed_delay_uses_backoff envPastDate 5 1 0
      (resp429After "Mon, 02 Jan 2006 15:04:05 GMT")
      (by decide) (by decide) (by decide) (Or.inr (Or.inr (by decide)))).1⟩,
   by decide, by decide, by decide, by decide, by decide, by decide⟩

/-- C7, at a 429 followed by a 200: the 200 is the sixth and last event of the run and is
returned as it was received, body unread and open. -/
theorem C7_non429_pass_through_witness :
    (RoundTrip env429Then200 5).trace[5]? = some (.send 1 (.response resp200)) ∧
    resp200.StatusCode ≠ StatusTooManyRequests ∧
    (RoundTrip env429Then200 5).ret = some (some resp200, none) ∧
    (RoundTrip env429Then200 5).trace.length = 5 + 1 :=
  ⟨by decide, by decide,
   C7_non429_pass_through env429Then200 5 5 1 resp200 (by decide) (by decide)⟩

/-- C8, at a 429 followed by a transport failure on the retry: the failure is returned and the
failed send is the last event of the run. -/
theorem C8_transport_failure_not_retried_witness :
    (RoundTrip env429ThenFailure 5).trace[5]? = some (.send 1 (.failure "connection reset")) ∧
    (RoundTrip env429ThenFailure 5).ret = some (none, some "connection reset") ∧
    (RoundTrip env429ThenFailure 5).trace.length = 5 + 1 :=
  ⟨by decide,
   C8_transport_failure_not_retried env429ThenFailure 5 5 1 "connection reset" (by decide)⟩

/-- C9, at a cancelled acquisition and at a wait of 2 s cancelled after the first 429. -/
theorem C9_cancellation_witness :
    (envCancelledAcquire.limiterWait = some "context canceled" ∧
      (RoundTrip envCancelledAcquire 5).ret = some (none, some "context canceled") ∧
      sendCount (RoundTrip envCancelledAcquire 5).trace = 0) ∧
    ((RoundTrip envCancelledWait 5).trace[3]?
        = some (.wait (2 * Second) (some "context canceled")) ∧
      (RoundTrip envCancelledWait 5).ret = some (none, some "context canceled") ∧
      (RoundTrip envCancelledWait 5).trace.length = 3 + 1) :=
  ⟨⟨rfl, (C9_cancellation envCancelledAcquire 5).1 "context canceled" rfl⟩,
   ⟨by decide, (C9_cancellation envCancelledWait 5).2 3 (2 * Second) "context canceled"
      (by decide)⟩⟩

/-! ## Counting sends and acquisitions -/

theorem sendCount_after (r : Run) (k : Nat) (res : SendResult) (evs : List Event)
    (hevs : ∀ x ∈ evs, x.isSend = false) :
    sendCount (r.after (.send k res :: evs)).trace = sendCount r.trace + 1 := by
  have h0 : List.countP Event.isSend evs = 0 := by
    rw [List.countP_eq_zero]
    intro x hx
    simp [hevs x hx]
  simp only [sendCount, Run.after, List.cons_append, List.countP_cons, Event.isSend, if_true,
    List.countP_append, h0, Nat.zero_add]

theorem retryLoop_no_acquire (env : Env) :
    ∀ (fuel k j : Nat), ∀ e ∈ (retryLoop env fuel k j).trace, e.isAcquire = false := by
  intro fuel
  induction fuel with
  | zero => intro k j e he; simp [retryLoop] at he
  | succ fuel ih =>
    intro k j e he
    obtain ⟨evs, hevs, hshape⟩ := retryLoop_shape env fuel k j
    rcases hshape with ⟨ht, _⟩ | ⟨j2, _, hr⟩
    · rw [ht] at he
      rcases List.mem_cons.1 he with rfl | hmem
      · rfl
      · exact (hevs e hmem).2
    · rw [hr] at he
      simp only [Run.after, List.cons_append, List.mem_cons, List.mem_append] at he
      rcases he with rfl | hmem | hmem
      · rfl
      · exact (hevs e hmem).2
      · exact ih (k + 1) j2 e hmem

/-- While retries remain, a 429 leads to the next iteration when no wait is cancelled and the
backoff does not stop. -/
theorem retryLoop_429_retry (env : Env) (hctx : ∀ k d, env.ctxDone k d = none)
    (hbo : ∀ j, env.nextBackOff j ≠ Stop) (fuel k j : Nat) (r : Response)
    (hres : env.baseRoundTrip k = .response r) (hs : r.StatusCode = StatusTooManyRequests)
    (hk : k < maxRetries) :
    ∃ evs j2, (∀ e ∈ evs, e.isSend = false) ∧
      retryLoop env (fuel + 1) k j
        = (retryLoop env fuel (k + 1) j2).after (.send k (.response r) :: evs) := by
  by_cases hw : 0 < retryAfterWait env k r
  · refine ⟨[.drainClose k, .wait (retryAfterWait env k r) none], j,
      by simp [Event.isSend], ?_⟩
    rw [retryLoop_retryAfter env fuel k j r hres hs hk hw, hctx]
  · refine ⟨[.drainClose k, .nextBackOff (env.nextBackOff j), .wait (env.nextBackOff j) none],
      j + 1, by simp [Event.isSend], ?_⟩
    rw [retryLoop_backoff env fuel k j r hres hs hk (not_lt.1 hw), if_neg (hbo j), hctx]

/-- C3, as amended. Retry budget exhaustion: against a sender that answers every send with
status 429 (with or without `Retry-After`), with no cancellation and a backoff that does not
report `Stop`, one `RoundTrip` call performs exactly 4 sends, the first attempt and
`maxRetries = 3` retries, and then returns the response of the fourth send, untouched, with a
nil error. -/
theorem C3_retry_budget_exhaustion (env : Env) (fuel : Nat) (hl : env.limiterWait = none)
    (h429 : ∀ k, ∃ r, env.baseRoundTrip k = .response r ∧ r.StatusCode = StatusTooManyRequests)
    (hctx : ∀ k d, env.ctxDone k d = none) (hbo : ∀ j, env.nextBackOff j ≠ Stop)
    (hfuel : 4 ≤ fuel) :
    sendCount (RoundTrip env fuel).trace = 4 ∧
      ∃ r, env.baseRoundTrip 3 = .response r ∧ r.StatusCode = StatusTooManyRequests ∧
        (RoundTrip env fuel).ret = some (some r, none) := by
  obtain ⟨f, rfl⟩ := Nat.exists_eq_add_of_le' hfuel
  obtain ⟨r0, h0, s0⟩ := h429 0
  obtain ⟨r1, h1, s1⟩ := h429 1
  obtain ⟨r2, h2, s2⟩ := h429 2
  obtain ⟨r3, h3, s3⟩ := h429 3
  obtain ⟨evs0, j1, hevs0, e0⟩ :=
    retryLoop_429_retry env hctx hbo (f + 3) 0 0 r0 h0 s0 (by decide)
  obtain ⟨evs1, j2, hevs1, e1⟩ :=
    retryLoop_429_retry env hctx hbo (f + 2) 1 j1 r1 h1 s1 (by decide)
  obtain ⟨evs2, j3, hevs2, e2⟩ :=
    retryLoop_429_retry env hctx hbo (f + 1) 2 j2 r2 h2 s2 (by decide)
  have e3 := retryLoop_exhausted env f 3 j3 r3 h3 (le_refl _)
  have hcount : sendCount (retryLoop env (f + 4) 0 0).trace = 4 := by
    rw [e0, sendCount_after _ _ _ _ hevs0, e1, sendCount_after _ _ _ _ hevs1, e2,
      sendCount_after _ _ _ _ hevs2, e3]
    rfl
  have hret : (retryLoop env (f + 4) 0 0).ret = some (some r3, none) := by
    rw [e0]
    show (retryLoop env (f + 3) 1 j1).ret = _
    rw [e1]
    show (retryLoop env (f + 2) 2 j2).ret = _
    rw [e2]
    show (retryLoop env (f + 1) 3 j3).ret = _
    rw [e3]
  rw [RoundTrip_acquired env (f + 4) hl]
  refine ⟨?_, r3, h3, s3, hret⟩
  simpa [sendCount, Run.after, Event.isSend] using hcount

/-- C3, at the server that always answers 429: four sends, and the 429 comes back untouched. -/
theorem C3_retry_budget_exhaustion_witness :
    sendCount (RoundTrip envAlways429 4).trace = 4 ∧
      ∃ r, envAlways429.baseRoundTrip 3 = .response r ∧ r.StatusCode = StatusTooManyRequests ∧
        (RoundTrip envAlways429 4).ret = some (some r, none) :=
  C3_retry_budget_exhaustion envAlways429 4 rfl (fun _ => ⟨resp429, rfl, rfl⟩)
    (fun _ _ => rfl) (fun _ => (by decide : Second ≠ Stop)) (by decide)

/-- C3 as stated fails: the limiter grants its token, the server always answers 429, no wait is
cancelled, and `RoundTrip` sends 4 times, not 3, before it returns the 429 with a nil error. -/
theorem C3_counterexample :
    envAlways429.limiterWait = none ∧
    (RoundTrip envAlways429 10).trace
      = [.acquire none,
         .send 0 (.response resp429), .drainClose 0, .nextBackOff Second, .wait Second none,
         .send 1 (.response resp429), .drainClose 1, .nextBackOff Second, .wait Second none,
         .send 2 (.response resp429), .drainClose 2, .nextBackOff Second, .wait Second none,
         .send 3 (.response resp429)] ∧
    sendCount (RoundTrip envAlways429 10).trace = 4 ∧
    sendCount (RoundTrip envAlways429 10).trace ≠ 3 ∧
    (RoundTrip envAlways429 10).ret = some (some resp429, none) := by
  decide

/-- C4, as amended. The limiter is consulted once per `RoundTrip`, before the first send: the
first event of every run is the one acquisition on the limiter, no other acquisition follows
(retries after a 429 acquire nothing), and every send comes after that acquisition, which has
then succeeded. -/
theorem C4_limiter_consulted_once (env : Env) (fuel : Nat) :
    (RoundTrip env fuel).trace.head? = some (.acquire env.limiterWait) ∧
    acquireCount (RoundTrip env fuel).trace = 1 ∧
    (∀ (i k : Nat) (res : SendResult),
      (RoundTrip env fuel).trace[i]? = some (.send k res) → 0 < i ∧ env.limiterWait = none) := by
  cases hl : env.limiterWait with
  | some e =>
    rw [RoundTrip_cancelled env fuel e hl]
    refine ⟨rfl, rfl, ?_⟩
    intro i k res h
    rcases i with _ | i <;> simp at h
  | none =>
    rw [RoundTrip_acquired env fuel hl]
    refine ⟨rfl, ?_, ?_⟩
    · have h0 : List.countP Event.isAcquire (retryLoop env fuel 0 0).trace = 0 := by
        rw [List.countP_eq_zero]
        intro x hx
        simp [retryLoop_no_acquire env fuel 0 0 x hx]
      simp [acquireCount, Run.after, Event.isAcquire, h0]
    · intro i k res h
      rcases i with _ | i
      · simp [Run.after] at h
      · exact ⟨Nat.succ_pos _, rfl⟩

/-- C4 as stated fails: a 429 followed by a 200 makes `RoundTrip` send twice on one
acquisition; the second send follows the backoff wait, not a new acquisition. -/
theorem C4_counterexample :
    (RoundTrip env429Then200 5).trace
      = [.acquire none, .send 0 (.response resp429), .drainClose 0, .nextBackOff Second,
         .wait Second none, .send 1 (.response resp200)] ∧
    sendCount (RoundTrip env429Then200 5).trace = 2 ∧
    acquireCount (RoundTrip env429Then200 5).trace = 1 ∧
    acquireCount (RoundTrip env429Then200 5).trace ≠ sendCount (RoundTrip env429Then200 5).trace := by
  decide

/-! ## `Retry-After` in seconds -/

theorem wrap64_of_inRange (x : Int) (h0 : -(2 ^ 63) ≤ x) (h1 : x < 2 ^ 63) : wrap64 x = x := by
  unfold wrap64
  norm_num at h0 h1 ⊢
  omega

theorem retryAfterWait_seconds (env : Env) (k : Nat) (r : Response) (s : Int)
    (ha : Atoi r.headerRetryAfter = some s) (h0 : 0 < s) (h1 : s ≤ 9223372036) :
    retryAfterWait env k r = s * Second := by
  have hne : r.headerRetryAfter ≠ "" := by
    intro h
    have hempty : Atoi "" = none := by decide
    rw [h, hempty] at ha
    cases ha
  simp only [retryAfterWait, ne_eq, hne, not_false_eq_true, if_true, ha]
  apply wrap64_of_inRange <;> simp only [Second] <;> norm_num <;> omega

/-- Within the range of `time.Duration` the directive is honoured: whenever a send of `RoundTrip`
made while retries remain is answered by a 429 whose `Retry-After` is an integer `s` with
`0 < s ≤ 9223372036`, the body is drained and closed and the next event is a wait of exactly
`s` seconds; the backoff is not asked. -/
theorem retryAfter_seconds_in_range (env : Env) (fuel i k : Nat) (r : Response) (s : Int)
    (h : (RoundTrip env fuel).trace[i]? = some (.send k (.response r)))
    (hs : r.StatusCode = StatusTooManyRequests) (hk : k < maxRetries)
    (ha : Atoi r.headerRetryAfter = some s) (h0 : 0 < s) (h1 : s ≤ 9223372036) :
    (RoundTrip env fuel).trace[i + 1]? = some (.drainClose k) ∧
      ∃ c, (RoundTrip env fuel).trace[i + 2]? = some (.wait (s * Second) c) := by
  have hwait := retryAfterWait_seconds env k r s ha h0 h1
  have hpos : 0 < retryAfterWait env k r := by
    rw [hwait]
    show 0 < s * 1000000000
    omega
  obtain ⟨_, hres, fuel1, j1, heq⟩ := RoundTrip_send_suffix env fuel i k _ h
  have hlen := take_length_of_getElem? _ i _ h
  obtain ⟨_, _, hget⟩ := suffix_facts _ _ i hlen heq
  rw [retryLoop_retryAfter env fuel1 k j1 r hres hs hk hpos, hwait] at hget
  cases hc : env.ctxDone k (s * Second) with
  | some err =>
    simp only [hc] at hget
    exact ⟨by rw [hget 1]; rfl, some err, by rw [hget 2]; rfl⟩
  | none =>
    simp only [hc] at hget
    exact ⟨by rw [hget 1]; simp [Run.after], none, by rw [hget 2]; simp [Run.after]⟩

/-- C5, at the directive `Retry-After: 2`: the wait is 2 s and the backoff is not asked; and at
the whole-number directives `Retry-After: 9223372037` and `Retry-After: 18446744074`, where the
claim fails: the product with `time.Second` wraps around in `int64`, so the first gives a
negative wait and the backoff is asked and its 1 s waited, and the second gives a wait of
290448384 ns instead of 18446744074 s. -/
theorem C5_retry_after_seconds_overflow :
    (RoundTrip (envRetryAfterThen200 "2") 5).trace
      = [.acquire none, .send 0 (.response (resp429After "2")), .drainClose 0,
         .wait (2 * Second) none, .send 1 (.response resp200)] ∧
    Atoi "9223372037" = some 9223372037 ∧
    retryAfterWait (envRetryAfterThen200 "9223372037") 0 (resp429After "9223372037")
      = -9223372036709551616 ∧
    (RoundTrip (envRetryAfterThen200 "9223372037") 5).trace
      = [.acquire none, .send 0 (.response (resp429After "9223372037")), .drainClose 0,
         .nextBackOff Second, .wait Second none, .send 1 (.response resp200)] ∧
    Atoi "18446744074" = some 18446744074 ∧
    (RoundTrip (envRetryAfterThen200 "18446744074") 5).trace
      = [.acquire none, .send 0 (.response (resp429After "18446744074")), .drainClose 0,
         .wait 290448384 none, .send 1 (.response resp200)] := by
  decide

theorem Atoi_examples :
    Atoi "2" = some 2 ∧ Atoi "-5" = some (-5) ∧ Atoi "+07" = some 7 ∧ Atoi "0" = some 0 ∧
    Atoi "" = none ∧ Atoi "-" = none ∧ Atoi "1_0" = none ∧ Atoi "2.5" = none ∧
    Atoi " 2" = none ∧ Atoi "9223372036854775807" = some 9223372036854775807 ∧
    Atoi "9223372036854775808" = none ∧
    Atoi "-9223372036854775808" = some (-9223372036854775808) := by
  decide

/-! ## The iterator across runs of `FetchAll` -/

theorem fetchLoop_done {σ T : Type} (fuel : Nat) (p : PageIterator σ T) (s : σ)
    (results : List T) (calls : List (FetchCall T)) (h : p.done = true) :
    p.fetchLoop fuel s results calls
      = { ret := some (results, none), iter := p, state := s, calls := calls } := by
  cases fuel <;> (rw [PageIterator.fetchLoop]; simp [h])

/-- The loop keeps the fetch function and the page size, never lowers the offset and never
clears the `done` flag. -/
theorem fetchLoop_monotone {σ T : Type} :
    ∀ (fuel : Nat) (p : PageIterator σ T) (s : σ) (results : List T) (calls : List (FetchCall T)),
      (p.fetchLoop fuel s results calls).iter.pageSize = p.pageSize ∧
      (p.fetchLoop fuel s results calls).iter.fetchFunc = p.fetchFunc ∧
      p.current ≤ (p.fetchLoop fuel s results calls).iter.current ∧
      (p.done = true → (p.fetchLoop fuel s results calls).iter.done = true) := by
  intro fuel
  induction fuel with
  | zero =>
    intro p s results calls
    rw [PageIterator.fetchLoop]
    split <;> simp_all
  | succ fuel ih =>
    intro p s results calls
    rw [PageIterator.fetchLoop]
    split
    · simp_all
    · next hd =>
      simp only
      split
      · exact ⟨rfl, rfl, le_refl _, fun h => absurd h hd⟩
      · next page s1 _ =>
        split
        · exact ⟨rfl, rfl, le_refl _, fun _ => rfl⟩
        · obtain ⟨h1, h2, h3, _⟩ :=
            ih { p with current := p.current + page.length } s1 (results ++ page)
              (calls ++ [⟨p.current, p.pageSize, .ok page⟩])
          refine ⟨h1, h2, ?_, fun h => absurd h hd⟩
          have h4 : p.current ≤ p.current + (page.length : Int) := by omega
          exact le_trans h4 h3

/-- A run of the loop that returns a nil error leaves the iterator exhausted. -/
theorem fetchLoop_ok_done {σ T : Type} :
    ∀ (fuel : Nat) (p : PageIterator σ T) (s : σ) (results : List T) (calls : List (FetchCall T))
      (res : List T), (p.fetchLoop fuel s results calls).ret = some (res, none) →
      (p.fetchLoop fuel s results calls).iter.done = true := by
  intro fuel
  induction fuel with
  | zero =>
    intro p s results calls res
    rw [PageIterator.fetchLoop]
    split <;> simp_all
  | succ fuel ih =>
    intro p s results calls res
    rw [PageIterator.fetchLoop]
    split
    · simp_all
    · simp only
      split
      · intro h; simp at h
      · next page s1 _ =>
        split
        · intro _; rfl
        · exact ih _ _ _ _ res

/-- C11. Exhaustion is terminal and monotonic: a run of `FetchAll`, on an iterator in any state,
never clears the `done` flag and never lowers the offset (`FetchPage` does not touch the
iterator at all); and after a `FetchAll` that returned a nil error, hence ended on a short page
or found the iterator exhausted, the iterator is exhausted and a further `FetchAll` makes no
fetch call, returns an empty result with a nil error and leaves the iterator and the state of
the fetch function as they were. -/
theorem C11_exhaustion_terminal {σ T : Type} (p : PageIterator σ T) (s : σ) (fuel : Nat) :
    (p.done = true → (p.FetchAll s fuel).iter.done = true) ∧
    p.current ≤ (p.FetchAll s fuel).iter.current ∧
    (∀ res, (p.FetchAll s fuel).ret = some (res, none) →
      (p.FetchAll s fuel).iter.done = true ∧
      ∀ fuel2, (p.FetchAll s fuel).iter.FetchAll (p.FetchAll s fuel).state fuel2
        = { ret := some ([], none), iter := (p.FetchAll s fuel).iter,
            state := (p.FetchAll s fuel).state, calls := [] }) := by
  obtain ⟨_, _, hcur, hdone⟩ := fetchLoop_monotone fuel p s [] []
  refine ⟨hdone, hcur, ?_⟩
  intro res hres
  have hd := fetchLoop_ok_done fuel p s [] [] res hres
  refine ⟨hd, ?_⟩
  intro fuel2
  exact fetchLoop_done fuel2 _ _ [] [] hd

/-- C11, at 120 items and page size 50: the first `FetchAll` ends on the short page of 20 items
with the offset at 100; the second makes no call, returns nothing and changes nothing. -/
theorem C11_exhaustion_terminal_witness :
    ((NewPageIterator (sliceFetch (List.range 120)) 50).FetchAll () 3).ret
      = some (List.range 120, none) ∧
    ((NewPageIterator (sliceFetch (List.range 120)) 50).FetchAll () 3).iter.done = true ∧
    ((NewPageIterator (sliceFetch (List.range 120)) 50).FetchAll () 3).iter.current = 100 ∧
    (((NewPageIterator (sliceFetch (List.range 120)) 50).FetchAll () 3).iter.FetchAll
        ((NewPageIterator (sliceFetch (List.range 120)) 50).FetchAll () 3).state 7).ret
      = some ([], none) ∧
    (((NewPageIterator (sliceFetch (List.range 120)) 50).FetchAll () 3).iter.FetchAll
        ((NewPageIterator (sliceFetch (List.range 120)) 50).FetchAll () 3).state 7).calls.length
      = 0 :=
  ⟨by decide, by decide, by decide,
   congrArg FetchRun.ret
    (((C11_exhaustion_terminal (NewPageIterator (sliceFetch (List.range 120)) 50) () 3).2.2
      (List.range 120) (by decide)).2 7),
   by decide⟩

/-- C12. Default page size: `NewPageIterator` yields an iterator whose page size is 50 when the
requested size is zero or negative and the requested size itself when it is positive, with
offset 0 and `done = false`; so the page size is positive, `FetchAll` never changes it, and the
limit passed to every fetch call, in the first `FetchAll` and in any later one, is positive. -/
theorem C12_default_page_size {σ T : Type} (f : Int → Int → σ → Except Err (List T) × σ)
    (pageSize : Int) :
    (pageSize ≤ 0 → (NewPageIterator f pageSize).pageSize = 50) ∧
    (0 < pageSize → (NewPageIterator f pageSize).pageSize = pageSize) ∧
    (NewPageIterator f pageSize).current = 0 ∧
    (NewPageIterator f pageSize).done = false ∧
    0 < (NewPageIterator f pageSize).pageSize ∧
    (∀ (s : σ) (fuel : Nat), ∀ c ∈ ((NewPageIterator f pageSize).FetchAll s fuel).calls,
      0 < c.limit) ∧
    (∀ (s s2 : σ) (fuel fuel2 : Nat),
      ∀ c ∈ (((NewPageIterator f pageSize).FetchAll s fuel).iter.FetchAll s2 fuel2).calls,
        0 < c.limit) := by
  have hpos : 0 < (NewPageIterator f pageSize).pageSize := by
    simp only [NewPageIterator]
    split <;> omega
  refine ⟨?_, ?_, rfl, rfl, hpos, ?_, ?_⟩
  · intro h
    simp [NewPageIterator, h]
  · intro h
    have h1 : ¬ pageSize ≤ 0 := by omega
    simp [NewPageIterator, h1]
  · intro s fuel c hc
    obtain ⟨new, hnew, hchain⟩ := fetchLoop_calls fuel (NewPageIterator f pageSize) s [] []
    have hcalls : ((NewPageIterator f pageSize).FetchAll s fuel).calls = new := by
      simpa [PageIterator.FetchAll] using hnew
    rw [hcalls] at hc
    rw [chainFrom_limit _ _ _ hchain c hc]
    exact hpos
  · intro s s2 fuel fuel2 c hc
    obtain ⟨hps, _, _, _⟩ := fetchLoop_monotone fuel (NewPageIterator f pageSize) s [] []
    obtain ⟨new, hnew, hchain⟩ :=
      fetchLoop_calls fuel2 ((NewPageIterator f pageSize).FetchAll s fuel).iter s2 [] []
    have hcalls : (((NewPageIterator f pageSize).FetchAll s fuel).iter.FetchAll s2 fuel2).calls
        = new := by
      simpa [PageIterator.FetchAll] using hnew
    rw [hcalls] at hc
    rw [chainFrom_limit _ _ _ hchain c hc]
    show 0 < ((NewPageIterator f pageSize).fetchLoop fuel s [] []).iter.pageSize
    rw [hps]
    exact hpos

/-- C12, at the requested page sizes -3, 0 and 7 over a source of 120 items. -/
theorem C12_default_page_size_witness :
    (NewPageIterator (sliceFetch (List.range 120)) (-3)).pageSize = 50 ∧
    (NewPageIterator (sliceFetch (List.range 120)) 0).pageSize = 50 ∧
    (NewPageIterator (sliceFetch (List.range 120)) 7).pageSize = 7 ∧
    ((NewPageIterator (sliceFetch (List.range 120)) (-3)).FetchAll () 3).calls.map
        (fun c => c.limit) = [50, 50, 50] :=
  ⟨(C12_default_page_size (sliceFetch (List.range 120)) (-3)).1 (by decide),
   (C12_default_page_size (sliceFetch (List.range 120)) 0).1 (by decide),
   (C12_default_page_size (sliceFetch (List.range 120)) 7).2.1 (by decide),
   by decide⟩

/-! ## `FetchAll` on a fetch error -/

/-- A failed call is the last call of the loop; the loop then returns the error without a
result and leaves the iterator not exhausted at the offset of the failed call. -/
theorem fetchLoop_error {σ T : Type} :
    ∀ (fuel : Nat) (p : PageIterator σ T) (s : σ) (results : List T) (calls : List (FetchCall T))
      (i : Nat) (c : FetchCall T) (e : Err),
      (p.fetchLoop fuel s results calls).calls[calls.length + i]? = some c →
      c.result = .error e →
      (p.fetchLoop fuel s results calls).ret = some ([], some e) ∧
      (p.fetchLoop fuel s results calls).calls.length = calls.length + i + 1 ∧
      (p.fetchLoop fuel s results calls).iter.done = false ∧
      (p.fetchLoop fuel s results calls).iter.current = c.start := by
  intro fuel
  induction fuel with
  | zero =>
    intro p s results calls i c e
    rw [PageIterator.fetchLoop]
    split <;> (intro hc; rw [List.getElem?_eq_none (by simp)] at hc; cases hc)
  | succ fuel ih =>
    intro p s results calls i c e
    rw [PageIterator.fetchLoop]
    split
    · intro hc
      rw [List.getElem?_eq_none (by simp)] at hc
      cases hc
    · next hd =>
      simp only
      split
      · next err s1 _ =>
        intro hc he
        rcases i with _ | i
        · simp only [Nat.add_zero, List.getElem?_concat_length, Option.some.injEq] at hc
          subst hc
          simp only [Except.error.injEq] at he
          subst he
          simp [hd]
        · rw [List.getElem?_eq_none (by simp)] at hc
          cases hc
      · next page s1 _ =>
        split
        · intro hc he
          rcases i with _ | i
          · simp only [Nat.add_zero, List.getElem?_concat_length, Option.some.injEq] at hc
            subst hc
            cases he
          · rw [List.getElem?_eq_none (by simp)] at hc
            cases hc
        · intro hc he
          rcases i with _ | i
          · obtain ⟨new, hnew, _⟩ :=
              fetchLoop_calls fuel { p with current := p.current + page.length } s1
                (results ++ page) (calls ++ [⟨p.current, p.pageSize, .ok page⟩])
            rw [hnew, List.append_assoc, Nat.add_zero,
              List.getElem?_append_right (le_refl _)] at hc
            simp only [Nat.sub_self, List.singleton_append, List.getElem?_cons_zero,
              Option.some.injEq] at hc
            subst hc
            cases he
          · have hidx : calls.length + (i + 1)
                = (calls ++ [(⟨p.current, p.pageSize, .ok page⟩ : FetchCall T)]).length + i := by
              simp only [List.length_append, List.length_singleton]
              omega
            rw [hidx] at hc
            obtain ⟨h1, h2, h3, h4⟩ := ih _ _ _ _ i c e hc he
            refine ⟨h1, ?_, h3, h4⟩
            rw [h2]
            simp only [List.length_append, List.length_singleton]
            omega

/-- A run of at least one iteration on an iterator that is not exhausted starts with a call at
the iterator's offset. -/
theorem fetchLoop_first_call {σ T : Type} (n : Nat) (p : PageIterator σ T) (s : σ)
    (results : List T) (h : p.done = false) :
    ∃ c, (p.fetchLoop (n + 1) s results []).calls.head? = some c ∧ c.start = p.current := by
  obtain ⟨new, hnew, hchain⟩ := fetchLoop_calls (n + 1) p s results []
  rw [List.nil_append] at hnew
  rw [hnew]
  cases new with
  | nil =>
    exfalso
    have hlen : (p.fetchLoop (n + 1) s results []).calls.length = 0 := by rw [hnew]; rfl
    rw [PageIterator.fetchLoop] at hlen
    simp only [h, Bool.false_eq_true, if_false] at hlen
    split at hlen
    · simp at hlen
    · next page s1 _ =>
      split at hlen
      · simp at hlen
      · obtain ⟨new2, hnew2, _⟩ :=
          fetchLoop_calls n
            { fetchFunc := p.fetchFunc, pageSize := p.pageSize,
              current := p.current + page.length, done := false } s1
            (results ++ page) ([] ++ [⟨p.current, p.pageSize, .ok page⟩])
        rw [hnew2] at hlen
        simp at hlen
  | cons c rest => exact ⟨c, rfl, hchain.1⟩

/-- C17. `FetchAll` on a fetch error: for every fetch function and every fresh iterator, if the
call with index `i` (the `i + 1`-th call) returns an error, `FetchAll` returns an empty result
together with exactly that error, the failed call is its last call, and the iterator is left
not exhausted with its offset at the offset of the failed call: a following `FetchAll` makes
its first call at that offset. -/
theorem C17_fetch_error {σ T : Type} (f : Int → Int → σ → Except Err (List T) × σ)
    (pageSize : Int) (s : σ) (fuel i : Nat) (c : FetchCall T) (e : Err)
    (hc : ((NewPageIterator f pageSize).FetchAll s fuel).calls[i]? = some c)
    (he : c.result = .error e) :
    ((NewPageIterator f pageSize).FetchAll s fuel).ret = some ([], some e) ∧
    ((NewPageIterator f pageSize).FetchAll s fuel).calls.length = i + 1 ∧
    ((NewPageIterator f pageSize).FetchAll s fuel).iter.done = false ∧
    ((NewPageIterator f pageSize).FetchAll s fuel).iter.current = c.start ∧
    (∀ n, ∃ c2,
      (((NewPageIterator f pageSize).FetchAll s fuel).iter.FetchAll
          ((NewPageIterator f pageSize).FetchAll s fuel).state (n + 1)).calls.head? = some c2 ∧
        c2.start = c.start) := by
  have hc1 : ((NewPageIterator f pageSize).fetchLoop fuel s [] []).calls[([] : List (FetchCall T)).length + i]?
      = some c := by
    simpa [PageIterator.FetchAll] using hc
  obtain ⟨h1, h2, h3, h4⟩ := fetchLoop_error fuel (NewPageIterator f pageSize) s [] [] i c e hc1 he
  refine ⟨h1, by simpa using h2, h3, h4, ?_⟩
  intro n
  obtain ⟨c2, hh, hs⟩ :=
    fetchLoop_first_call n ((NewPageIterator f pageSize).FetchAll s fuel).iter
      ((NewPageIterator f pageSize).FetchAll s fuel).state [] h3
  exact ⟨c2, hh, by rw [hs]; exact h4⟩

/-- C17, at a fetch function whose second call fails: the two items of the first page are not
returned, the error is, and the iterator stays at offset 2, where the next `FetchAll` resumes. -/
theorem C17_fetch_error_witness :
    ((NewPageIterator failingFetch 2).FetchAll 0 5).calls[1]? = some ⟨2, 2, .error "boom"⟩ ∧
    ((NewPageIterator failingFetch 2).FetchAll 0 5).ret = some ([], some "boom") ∧
    ((NewPageIterator failingFetch 2).FetchAll 0 5).calls.length = 1 + 1 ∧
    ((NewPageIterator failingFetch 2).FetchAll 0 5).iter.done = false ∧
    ((NewPageIterator failingFetch 2).FetchAll 0 5).iter.current = 2 ∧
    (((NewPageIterator failingFetch 2).FetchAll 0 5).iter.FetchAll
        ((NewPageIterator failingFetch 2).FetchAll 0 5).state 5).calls.map (fun c => c.start)
      = [2] :=
  ⟨rfl,
   (C17_fetch_error failingFetch 2 0 5 1 ⟨2, 2, .error "boom"⟩ "boom" rfl rfl).1,
   (C17_fetch_error failingFetch 2 0 5 1 ⟨2, 2, .error "boom"⟩ "boom" rfl rfl).2.1,
   (C17_fetch_error failingFetch 2 0 5 1 ⟨2, 2, .error "boom"⟩ "boom" rfl rfl).2.2.1,
   (C17_fetch_error failingFetch 2 0 5 1 ⟨2, 2, .error "boom"⟩ "boom" rfl rfl).2.2.2.1,
   by decide⟩

/-! ## The retry budget -/

theorem retryLoop_sendCount_le (env : Env) :
    ∀ (fuel k j : Nat), sendCount (retryLoop env fuel k j).trace ≤ (maxRetries - k) + 1 := by
  intro fuel
  induction fuel with
  | zero => intro k j; simp [retryLoop, sendCount]
  | succ fuel ih =>
    intro k j
    obtain ⟨evs, hevs, hshape⟩ := retryLoop_shape env fuel k j
    rcases hshape with ⟨ht, _⟩ | ⟨j2, hk, hr⟩
    · have h1 : sendCount (retryLoop env (fuel + 1) k j).trace = 1 := by
        have := sendCount_after { ret := none, trace := [] } k (env.baseRoundTrip k) evs
          (fun x hx => (hevs x hx).1)
        simpa [ht, Run.after, sendCount] using this
      omega
    · rw [hr, sendCount_after _ _ _ _ (fun x hx => (hevs x hx).1)]
      have := ih (k + 1) j2
      omega

/-- The `retryCount` of a send is the `retryCount` the loop started with plus the number of
sends the loop made before it, and it never exceeds `maxRetries`. -/
theorem retryLoop_send_index (env : Env) :
    ∀ (fuel k j i k1 : Nat) (res : SendResult),
      (retryLoop env fuel k j).trace[i]? = some (.send k1 res) →
      k1 = k + sendCount ((retryLoop env fuel k j).trace.take i) ∧ k1 ≤ max k maxRetries := by
  intro fuel
  induction fuel with
  | zero => intro k j i k1 res h; simp [retryLoop] at h
  | succ fuel ih =>
    intro k j i k1 res h
    obtain ⟨evs, hevs, hshape⟩ := retryLoop_shape env fuel k j
    cases i with
    | zero =>
      have h0 : Event.send k (env.baseRoundTrip k) = Event.send k1 res := by
        rcases hshape with ⟨ht, _⟩ | ⟨j2, _, hr⟩
        · rw [ht] at h; simpa using h
        · rw [hr] at h; simpa [Run.after] using h
      injection h0 with hk _
      subst hk
      exact ⟨by simp [sendCount], le_max_left _ _⟩
    | succ i =>
      have hnot : ¬ (i < evs.length) := by
        intro hlt
        have hmem : evs[i] ∈ evs := List.getElem_mem hlt
        have hget : evs[i]? = some (.send k1 res) := by
          rcases hshape with ⟨ht, _⟩ | ⟨j2, _, hr⟩
          · rw [ht] at h
            simpa using h
          · rw [hr] at h
            simp only [Run.after, List.cons_append, List.getElem?_cons_succ] at h
            rwa [List.getElem?_append_left hlt] at h
        rw [List.getElem?_eq_getElem hlt] at hget
        have := (hevs _ hmem).1
        rw [Option.some.inj hget] at this
        simp [Event.isSend] at this
      rcases hshape with ⟨ht, _⟩ | ⟨j2, hk, hr⟩
      · rw [ht] at h
        simp only [List.getElem?_cons_succ] at h
        have := List.getElem?_eq_some_iff.1 h
        exact absurd this.1 hnot
      · have hrec : (retryLoop env fuel (k + 1) j2).trace[i - evs.length]?
            = some (.send k1 res) := by
          rw [hr] at h
          simp only [Run.after, List.cons_append, List.getElem?_cons_succ] at h
          rwa [List.getElem?_append_right (Nat.not_lt.1 hnot)] at h
        obtain ⟨hidx, hle⟩ := ih (k + 1) j2 (i - evs.length) k1 res hrec
        have htake : (retryLoop env (fuel + 1) k j).trace.take (i + 1)
            = (Event.send k (env.baseRoundTrip k) :: evs)
              ++ (retryLoop env fuel (k + 1) j2).trace.take (i - evs.length) := by
          rw [hr]
          simp only [Run.after, List.cons_append, List.take_succ_cons]
          rw [List.take_append_eq_append_take, List.take_of_length_le (Nat.not_lt.1 hnot)]
        have hcount : sendCount ((retryLoop env (fuel + 1) k j).trace.take (i + 1))
            = sendCount ((retryLoop env fuel (k + 1) j2).trace.take (i - evs.length)) + 1 := by
          rw [htake]
          exact sendCount_after
            { ret := none, trace := (retryLoop env fuel (k + 1) j2).trace.take (i - evs.length) }
            k (env.baseRoundTrip k) evs (fun x hx => (hevs x hx).1)
        refine ⟨by rw [hcount, hidx]; omega, ?_⟩
        have h1 : max (k + 1) maxRetries = maxRetries := max_eq_right hk
        rw [h1] at hle
        exact le_trans hle (le_max_right _ _)

/-- C18. Bounded retries: whatever the sender answers (responses, errors, any `Retry-After`),
whatever the backoff hands out and however the waits end, one `RoundTrip` call makes at most 4
sends; the `retryCount` of every send is the number of sends made before it, at most 3, whether
the waits in between were taken from `Retry-After` or from the backoff; and the call returns as
soon as the loop is given 4 iterations. -/
theorem C18_bounded_retries (env : Env) (fuel : Nat) :
    sendCount (RoundTrip env fuel).trace ≤ 4 ∧
    (∀ (i k : Nat) (res : SendResult),
      (RoundTrip env fuel).trace[i]? = some (.send k res) →
      k = sendCount ((RoundTrip env fuel).trace.take i) ∧ k ≤ maxRetries) ∧
    (4 ≤ fuel → (RoundTrip env fuel).ret ≠ none) := by
  refine ⟨?_, ?_, fun h => RoundTrip_returns env fuel h⟩
  · cases hl : env.limiterWait with
    | some e =>
      rw [RoundTrip_cancelled env fuel e hl]
      simp [sendCount, Event.isSend]
    | none =>
      rw [RoundTrip_acquired env fuel hl]
      have := retryLoop_sendCount_le env fuel 0 0
      simp only [maxRetries] at this
      simpa [sendCount, Run.after, Event.isSend] using this
  · intro i k res h
    cases hl : env.limiterWait with
    | some e =>
      rw [RoundTrip_cancelled env fuel e hl] at h
      rcases i with _ | i <;> simp at h
    | none =>
      rw [RoundTrip_acquired env fuel hl] at h ⊢
      rcases i with _ | i
      · simp [Run.after] at h
      · have h1 : (retryLoop env fuel 0 0).trace[i]? = some (.send k res) := by
          simpa [Run.after] using h
        obtain ⟨hidx, hle⟩ := retryLoop_send_index env fuel 0 0 i k res h1
        refine ⟨?_, by simpa using hle⟩
        rw [hidx]
        simp [sendCount, Run.after, Event.isSend]

/-- C18, at a server that always answers 429 with `Retry-After: 2`: the three waits of 2 s use
up the three retries, the fourth send has `retryCount = 3` and its 429 is returned. -/
theorem C18_bounded_retries_witness :
    (RoundTrip envAlways429After2 9).trace
      = [.acquire none,
         .send 0 (.response (resp429After "2")), .drainClose 0, .wait (2 * Second) none,
         .send 1 (.response (resp429After "2")), .drainClose 1, .wait (2 * Second) none,
         .send 2 (.response (resp429After "2")), .drainClose 2, .wait (2 * Second) none,
         .send 3 (.response (resp429After "2"))] ∧
    sendCount (RoundTrip envAlways429After2 9).trace ≤ 4 ∧
    (RoundTrip envAlways429After2 9).ret ≠ none ∧
    (RoundTrip envAlways429After2 9).ret = some (some (resp429After "2"), none) :=
  ⟨by decide, (C18_bounded_retries envAlways429After2 9).1,
   (C18_bounded_retries envAlways429After2 9).2.2 (by decide), by decide⟩

/-! ## The body of a 429 response -/

/-- C19. Body handling of 429 responses: whenever a send of `RoundTrip` is answered by a 429,
(1) if retries remain (`retryCount < 3`), the very next thing `RoundTrip` does is to drain and
close the body, before the backoff is asked or anything is waited for; (2) if the retry count
has reached its limit, the send is the last event and the response is returned as received, its
body neither read nor closed; (3) if retries remain and the backoff, asked next, reports `Stop`,
the response is returned with its body drained and closed. -/
theorem C19_body_of_429 (env : Env) (fuel i k : Nat) (r : Response)
    (h : (RoundTrip env fuel).trace[i]? = some (.send k (.response r)))
    (hs : r.StatusCode = StatusTooManyRequests) :
    (k < maxRetries → (RoundTrip env fuel).trace[i + 1]? = some (.drainClose k)) ∧
    (maxRetries ≤ k →
      (RoundTrip env fuel).ret = some (some r, none) ∧
        (RoundTrip env fuel).trace.length = i + 1) ∧
    (k < maxRetries → (RoundTrip env fuel).trace[i + 2]? = some (.nextBackOff Stop) →
      (RoundTrip env fuel).ret = some (some r.drainClose, none) ∧
        r.drainClose.Body = { unread := [], closed := true } ∧
        (RoundTrip env fuel).trace.length = i + 3) := by
  obtain ⟨_, hres, fuel1, j1, heq⟩ := RoundTrip_send_suffix env fuel i k _ h
  have hlen := take_length_of_getElem? _ i _ h
  obtain ⟨hret, hlength, hget⟩ := suffix_facts _ _ i hlen heq
  refine ⟨?_, ?_, ?_⟩
  · intro hk
    by_cases hw : 0 < retryAfterWait env k r
    · rw [hget 1, retryLoop_retryAfter env fuel1 k j1 r hres hs hk hw]
      cases env.ctxDone k (retryAfterWait env k r) <;> simp [Run.after]
    · rw [hget 1, retryLoop_backoff env fuel1 k j1 r hres hs hk (not_lt.1 hw)]
      by_cases hstop : env.nextBackOff j1 = Stop
      · simp [hstop]
      · simp only [hstop, if_false]
        cases env.ctxDone k (env.nextBackOff j1) <;> simp [Run.after]
  · intro hk
    rw [retryLoop_exhausted env fuel1 k j1 r hres hk] at hret hlength
    exact ⟨hret, hlength⟩
  · intro hk hnb
    by_cases hw : 0 < retryAfterWait env k r
    · rw [hget 2, retryLoop_retryAfter env fuel1 k j1 r hres hs hk hw] at hnb
      cases hc : env.ctxDone k (retryAfterWait env k r) <;> rw [hc] at hnb <;>
        simp [Run.after] at hnb
    · rw [retryLoop_backoff env fuel1 k j1 r hres hs hk (not_lt.1 hw)] at hret hlength hget
      by_cases hstop : env.nextBackOff j1 = Stop
      · simp only [hstop, if_true] at hret hlength
        exact ⟨hret, rfl, hlength⟩
      · exfalso
        rw [hget 2] at hnb
        simp only [hstop, if_false] at hnb
        cases hc : env.ctxDone k (env.nextBackOff j1) <;> rw [hc] at hnb <;>
          simp [Run.after] at hnb <;> exact hstop hnb

/-- C19, at the server that always answers 429: the fourth 429 comes back with its body unread
and open; and at a backoff that reports `Stop` at once: the first 429 comes back with its body
drained and closed. -/
theorem C19_body_of_429_witness :
    ((RoundTrip envAlways429 9).trace[1]? = some (.send 0 (.response resp429)) ∧
      (RoundTrip envAlways429 9).trace[1 + 1]? = some (.drainClose 0)) ∧
    ((RoundTrip envAlways429 9).trace[13]? = some (.send 3 (.response resp429)) ∧
      (RoundTrip envAlways429 9).ret = some (some resp429, none) ∧
      (RoundTrip envAlways429 9).trace.length = 13 + 1 ∧
      resp429.Body = { unread := [1, 2, 3], closed := false }) ∧
    ((RoundTrip envBackoffStop 9).trace
        = [.acquire none, .send 0 (.response resp429), .drainClose 0, .nextBackOff Stop] ∧
      (RoundTrip envBackoffStop 9).ret = some (some resp429.drainClose, none) ∧
      resp429.drainClose.Body = { unread := [], closed := true } ∧
      (RoundTrip envBackoffStop 9).trace.length = 1 + 3) :=
  ⟨⟨by decide,
    (C19_body_of_429 envAlways429 9 1 0 resp429 (by decide) (by decide)).1 (by decide)⟩,
   ⟨by decide,
    (C19_body_of_429 envAlways429 9 13 3 resp429 (by decide) (by decide)).2.1 (by decide)
      |>.1,
    (C19_body_of_429 envAlways429 9 13 3 resp429 (by decide) (by decide)).2.1 (by decide)
      |>.2,
    rfl⟩,
   ⟨by decide,
    (C19_body_of_429 envBackoffStop 9 1 0 resp429 (by decide) (by decide)).2.2
      (by decide) (by decide)⟩⟩

/-! ## `Retry-After` as a date -/

theorem clamp64_of_inRange (x : Int) (h0 : -(2 ^ 63) ≤ x) (h1 : x ≤ 2 ^ 63 - 1) :
    clamp64 x = x := by
  unfold clamp64
  rw [if_neg (not_lt.2 h0), if_neg (not_lt.2 h1)]

theorem clamp64_pos (x : Int) (h : 0 < x) : 0 < clamp64 x := by
  unfold clamp64
  split
  · omega
  · split
    · norm_num
    · exact h

theorem clamp64_nonpos (x : Int) (h : x ≤ 0) : clamp64 x ≤ 0 := by
  unfold clamp64
  split
  · norm_num
  · split
    · norm_num at *
      omega
    · exact h

theorem retryAfterWait_date (env : Env) (k : Nat) (r : Response) (t : Int)
    (hne : r.headerRetryAfter ≠ "") (ha : Atoi r.headerRetryAfter = none)
    (hd : env.parseRFC1123 r.headerRetryAfter = some t) :
    retryAfterWait env k r = timeUntil (env.now k) t := by
  simp only [retryAfterWait, ne_eq, hne, not_false_eq_true, if_true, ha, hd]

theorem clamp64_of_large (x : Int) (h : 2 ^ 63 - 1 < x) : clamp64 x = 2 ^ 63 - 1 := by
  unfold clamp64
  have h1 : ¬ x < -(2 ^ 63) := by
    norm_num at h ⊢
    omega
  rw [if_neg h1, if_pos h]

/-- The first thing an iteration of the loop does is the send of that iteration. -/
theorem retryLoop_first_event (env : Env) (fuel k j : Nat) (e : Event)
    (h : (retryLoop env fuel k j).trace[0]? = some e) : e = .send k (env.baseRoundTrip k) := by
  cases fuel with
  | zero => simp [retryLoop] at h
  | succ fuel =>
    obtain ⟨evs, _, hshape⟩ := retryLoop_shape env fuel k j
    rcases hshape with ⟨ht, _⟩ | ⟨j2, _, hr⟩
    · rw [ht] at h
      simpa using h.symm
    · rw [hr] at h
      simpa [Run.after] using h.symm

/-- C14, as amended. `Retry-After` as an absolute timestamp: whenever a send of `RoundTrip`
made while retries remain is answered by a 429 whose `Retry-After` header is not an integer but
parses as the RFC1123 date `t`, the body is drained and closed, and then: if `t` lies in the
future, the backoff is not asked, the wait is `time.Until(t)` and the next send, if any,
directly follows that wait; the wait is `t` minus the current time, ending at `t`, when that
difference fits a `time.Duration`, and the largest `time.Duration`, `2 ^ 63 - 1` ns, ending
before `t`, when it does not; if `t` does not lie in the future, no wait of zero is made: the
backoff is asked instead. -/
theorem C14_retry_after_date (env : Env) (fuel i k : Nat) (r : Response) (t : Int)
    (h : (RoundTrip env fuel).trace[i]? = some (.send k (.response r)))
    (hs : r.StatusCode = StatusTooManyRequests) (hk : k < maxRetries)
    (hne : r.headerRetryAfter ≠ "") (ha : Atoi r.headerRetryAfter = none)
    (hd : env.parseRFC1123 r.headerRetryAfter = some t) :
    (RoundTrip env fuel).trace[i + 1]? = some (.drainClose k) ∧
    (env.now k < t →
      (∃ c, (RoundTrip env fuel).trace[i + 2]? = some (.wait (timeUntil (env.now k) t) c)) ∧
      (∀ e, (RoundTrip env fuel).trace[i + 3]? = some e →
        e = .send (k + 1) (env.baseRoundTrip (k + 1))) ∧
      0 < timeUntil (env.now k) t ∧
      (t - env.now k ≤ 2 ^ 63 - 1 →
        timeUntil (env.now k) t = t - env.now k ∧
        env.now k + timeUntil (env.now k) t = t) ∧
      (2 ^ 63 - 1 < t - env.now k →
        timeUntil (env.now k) t = 2 ^ 63 - 1 ∧
        env.now k + timeUntil (env.now k) t < t)) ∧
    (t ≤ env.now k →
      ∃ j, (RoundTrip env fuel).trace[i + 2]? = some (.nextBackOff (env.nextBackOff j))) := by
  have hwait := retryAfterWait_date env k r t hne ha hd
  obtain ⟨_, hres, fuel1, j1, heq⟩ := RoundTrip_send_suffix env fuel i k _ h
  have hlen := take_length_of_getElem? _ i _ h
  obtain ⟨_, _, hget⟩ := suffix_facts _ _ i hlen heq
  by_cases hfut : env.now k < t
  · have hpos : 0 < retryAfterWait env k r := by
      rw [hwait]
      exact clamp64_pos _ (by omega)
    rw [retryLoop_retryAfter env fuel1 k j1 r hres hs hk hpos, hwait] at hget
    have hget1 := hget 1
    have hget2 := hget 2
    have hget3 := hget 3
    refine ⟨?_, ?_, fun hle => absurd hfut (not_lt.2 hle)⟩
    · rw [hget1]
      cases env.ctxDone k (timeUntil (env.now k) t) <;> simp [Run.after]
    · intro _
      refine ⟨?_, ?_, by rw [← hwait]; exact hpos, ?_, ?_⟩
      · cases hc : env.ctxDone k (timeUntil (env.now k) t) with
        | some err => exact ⟨some err, by rw [hget2, hc]; rfl⟩
        | none => exact ⟨none, by rw [hget2, hc]; simp [Run.after]⟩
      · intro e he
        rw [hget3] at he
        cases hc : env.ctxDone k (timeUntil (env.now k) t) with
        | some err =>
          rw [hc] at he
          simp at he
        | none =>
          rw [hc] at he
          have he0 : (retryLoop env fuel1 (k + 1) j1).trace[0]? = some e := by
            simpa [Run.after] using he
          exact retryLoop_first_event env fuel1 (k + 1) j1 e he0
      · intro hfit
        have heq1 : timeUntil (env.now k) t = t - env.now k :=
          clamp64_of_inRange _ (by norm_num; omega) hfit
        exact ⟨heq1, by rw [heq1]; ring⟩
      · intro hbig
        have heq1 : timeUntil (env.now k) t = 2 ^ 63 - 1 := clamp64_of_large _ hbig
        refine ⟨heq1, ?_⟩
        rw [heq1]
        omega
  · have hnonpos : retryAfterWait env k r ≤ 0 := by
      rw [hwait]
      exact clamp64_nonpos _ (by omega)
    rw [retryLoop_backoff env fuel1 k j1 r hres hs hk hnonpos] at hget
    have hget1 := hget 1
    have hget2 := hget 2
    refine ⟨?_, fun hlt => absurd hlt hfut, fun _ => ⟨j1, ?_⟩⟩
    · rw [hget1]
      by_cases hstop : env.nextBackOff j1 = Stop
      · simp [hstop]
      · simp only [hstop, if_false]
        cases env.ctxDone k (env.nextBackOff j1) <;> simp [Run.after]
    · rw [hget2]
      by_cases hstop : env.nextBackOff j1 = Stop
      · simp [hstop]
      · simp only [hstop, if_false]
        cases env.ctxDone k (env.nextBackOff j1) <;> simp [Run.after]

/-- C14, at a date 30 s in the future: the body is drained, 30 s are waited without the
backoff, the wait ends at the date and the next send follows it. -/
theorem C14_retry_after_date_witness :
    (RoundTrip envFutureDate 5).trace[1 + 1]? = some (.drainClose 0) ∧
    (timeUntil (envFutureDate.now 0) (1136214245 * Second)
        = 1136214245 * Second - envFutureDate.now 0 ∧
      envFutureDate.now 0 + timeUntil (envFutureDate.now 0) (1136214245 * Second)
        = 1136214245 * Second) ∧
    (RoundTrip envFutureDate 5).trace
      = [.acquire none, .send 0 (.response (resp429After "Mon, 02 Jan 2006 15:04:05 GMT")),
         .drainClose 0, .wait (30 * Second) none, .send 1 (.response resp200)] :=
  ⟨(C14_retry_after_date envFutureDate 5 1 0 (resp429After "Mon, 02 Jan 2006 15:04:05 GMT")
      (1136214245 * Second) (by decide) (by decide) (by decide) (by decide) (by decide)
      (by decide)).1,
   ((C14_retry_after_date envFutureDate 5 1 0 (resp429After "Mon, 02 Jan 2006 15:04:05 GMT")
      (1136214245 * Second) (by decide) (by decide) (by decide) (by decide) (by decide)
      (by decide)).2.1 (by decide)).2.2.2.1 (by decide),
   by decide⟩

/-- C14 as stated fails, twice. (1) The `Retry-After` of the first 429 is not an integer and
parses as a date 563785755 s in the past; `t` minus the current time clamped at 0 is a wait of
0, but `RoundTrip` asks the backoff and waits the 1 s it hands out. (2) The `Retry-After` of the
first 429 parses as the last second of the year 9999, the clock reading 2 November 2026; `t`
minus the current time is 251608723199 s, but `RoundTrip` waits `2 ^ 63 - 1` ns, which ends
before `t`. -/
theorem C14_counterexample :
    (Atoi (resp429After "Mon, 02 Jan 2006 15:04:05 GMT").headerRetryAfter = none ∧
      envPastDate.parseRFC1123 (resp429After "Mon, 02 Jan 2006 15:04:05 GMT").headerRetryAfter
        = some (1136214245 * Second) ∧
      max (1136214245 * Second - envPastDate.now 0) 0 = 0 ∧
      (RoundTrip envPastDate 5).trace
        = [.acquire none, .send 0 (.response (resp429After "Mon, 02 Jan 2006 15:04:05 GMT")),
           .drainClose 0, .nextBackOff Second, .wait Second none, .send 1 (.response resp200)] ∧
      (RoundTrip envPastDate 5).trace[4]? ≠ some (.wait 0 none)) ∧
    (Atoi (resp429After "Fri, 31 Dec 9999 23:59:59 GMT").headerRetryAfter = none ∧
      envFarFutureDate.parseRFC1123 (resp429After "Fri, 31 Dec 9999 23:59:59 GMT").headerRetryAfter
        = some (253402300799 * Second) ∧
      253402300799 * Second - envFarFutureDate.now 0 = 251608723199 * Second ∧
      (RoundTrip envFarFutureDate 5).trace
        = [.acquire none, .send 0 (.response (resp429After "Fri, 31 Dec 9999 23:59:59 GMT")),
           .drainClose 0, .wait 9223372036854775807 none, .send 1 (.response resp200)] ∧
      (9223372036854775807 : Int) < 251608723199 * Second ∧
      envFarFutureDate.now 0 + 9223372036854775807 < 253402300799 * Second) := by
  decide

/-! ## The waits taken from the backoff -/

/-- The waits that the loop takes from the backoff are the successive answers of
`NextBackOff`, none of them `Stop`, and there are no more of them than retries remain. -/
theorem retryLoop_backoffWaits (env : Env) :
    ∀ (fuel k j : Nat), ∃ n, n ≤ maxRetries - k ∧
      backoffWaits (retryLoop env fuel k j).trace
          = (List.range n).map (fun i => env.nextBackOff (j + i)) ∧
        ∀ i, i < n → env.nextBackOff (j + i) ≠ Stop := by
  intro fuel
  induction fuel with
  | zero => intro k j; exact ⟨0, Nat.zero_le _, by simp [retryLoop, backoffWaits], by simp⟩
  | succ fuel ih =>
    intro k j
    cases hres : env.baseRoundTrip k with
    | failure e =>
      exact ⟨0, Nat.zero_le _, by simp [retryLoop_failure env fuel k j e hres, backoffWaits], by simp⟩
    | response r =>
      by_cases hs : r.StatusCode = StatusTooManyRequests
      · by_cases hk : k < maxRetries
        · by_cases hw : 0 < retryAfterWait env k r
          · rw [retryLoop_retryAfter env fuel k j r hres hs hk hw]
            cases hc : env.ctxDone k (retryAfterWait env k r) with
            | some err => exact ⟨0, Nat.zero_le _, by simp [backoffWaits], by simp⟩
            | none =>
              obtain ⟨n, hle, hn, hne⟩ := ih (k + 1) j
              exact ⟨n, by omega, by simpa [Run.after, backoffWaits] using hn, hne⟩
          · rw [retryLoop_backoff env fuel k j r hres hs hk (not_lt.1 hw)]
            by_cases hstop : env.nextBackOff j = Stop
            · exact ⟨0, Nat.zero_le _, by simp [hstop, backoffWaits], by simp⟩
            · simp only [hstop, if_false]
              cases hc : env.ctxDone k (env.nextBackOff j) with
              | some err =>
                refine ⟨1, by omega, by simp [backoffWaits, List.range_succ], ?_⟩
                intro i hi
                have hi0 : i = 0 := by omega
                subst hi0
                exact hstop
              | none =>
                obtain ⟨n, hle, hn, hne⟩ := ih (k + 1) (j + 1)
                refine ⟨n + 1, by omega, ?_, ?_⟩
                · have hb : backoffWaits ((retryLoop env fuel (k + 1) (j + 1)).after
                      [.send k (.response r), .drainClose k, .nextBackOff (env.nextBackOff j),
                        .wait (env.nextBackOff j) none]).trace
                      = env.nextBackOff j
                        :: backoffWaits (retryLoop env fuel (k + 1) (j + 1)).trace := by
                    simp [Run.after, backoffWaits]
                  rw [hb, hn, List.range_succ_eq_map]
                  simp only [List.map_cons, List.map_map, Nat.add_zero]
                  congr 1
                  apply List.map_congr_left
                  intro i _
                  simp only [Function.comp, Nat.succ_eq_add_one]
                  congr 1
                  omega
                · intro i hi
                  rcases i with _ | i
                  · exact hstop
                  · have := hne i (by omega)
                    have hidx : j + (i + 1) = j + 1 + i := by omega
                    rw [hidx]
                    exact this
        · exact ⟨0, Nat.zero_le _, by simp [retryLoop_exhausted env fuel k j r hres (Nat.not_lt.1 hk),
            backoffWaits], by simp⟩
      · exact ⟨0, Nat.zero_le _, by simp [retryLoop_pass env fuel k j r hres hs, backoffWaits], by simp⟩

theorem boBefore_currentInterval (elapsed : Nat → Duration) (random : Nat → Nat) :
    (boBefore elapsed random 0).currentInterval = 500000000 ∧
    (boBefore elapsed random 1).currentInterval = 750000000 ∧
    (boBefore elapsed random 2).currentInterval = 1125000000 ∧
    (boBefore elapsed random 3).currentInterval = 1687500000 := by
  simp only [boBefore, ExponentialBackOff.NextBackOff,
    ExponentialBackOff.incrementCurrentInterval, roundTripBackOff, NewExponentialBackOff,
    ExponentialBackOff.Reset, Second]
  norm_num

theorem boBefore_factor (elapsed : Nat → Duration) (random : Nat → Nat) :
    ∀ j, (boBefore elapsed random j).randNum = 1 ∧ (boBefore elapsed random j).randDen = 2 := by
  intro j
  induction j with
  | zero => exact ⟨rfl, rfl⟩
  | succ j ih =>
    simp only [boBefore, ExponentialBackOff.NextBackOff,
      ExponentialBackOff.incrementCurrentInterval]
    split <;> exact ih

theorem boNextBackOff_value (elapsed : Nat → Duration) (random : Nat → Nat) (j : Nat)
    (h : boNextBackOff elapsed random j ≠ Stop) :
    boNextBackOff elapsed random j
      = getRandomValueFromInterval 1 2 (random j) (boBefore elapsed random j).currentInterval := by
  obtain ⟨h1, h2⟩ := boBefore_factor elapsed random j
  unfold boNextBackOff ExponentialBackOff.NextBackOff at h ⊢
  simp only at h ⊢
  split
  · next hc => simp [hc] at h
  · rw [h1, h2]

theorem half_to_three_halves (c x : Int) (h0 : 0 ≤ x)
    (h1 : x ≤ 9223372036854775808 * (2 * c + 2)) :
    c / 2 ≤ (c * 9223372036854775808 + x) / 18446744073709551616 ∧
    (c * 9223372036854775808 + x) / 18446744073709551616 ≤ c * 3 / 2 + 1 := by
  constructor <;> omega

/-- The randomised value lies between half the current interval and one and a half times the
current interval, to the nanosecond. -/
theorem getRandomValueFromInterval_bounds (random : Nat) (c : Int) (h0 : 0 ≤ c)
    (hr : random < 2 ^ 63) :
    c / 2 ≤ getRandomValueFromInterval 1 2 random c ∧
    getRandomValueFromInterval 1 2 random c ≤ c * 3 / 2 + 1 := by
  have hr1 : (random : Int) < 9223372036854775808 := by exact_mod_cast hr
  have hr0 : (0 : Int) ≤ (random : Int) := Int.ofNat_nonneg _
  have hc2 : (0 : Int) ≤ 2 * c + 2 := by omega
  have hval : getRandomValueFromInterval 1 2 random c
      = (c * 9223372036854775808 + (random : Int) * (2 * c + 2)) / 18446744073709551616 := by
    simp only [getRandomValueFromInterval]
    norm_num
  rw [hval]
  have hp0 : 0 ≤ (random : Int) * (2 * c + 2) := mul_nonneg hr0 hc2
  have hp1 : (random : Int) * (2 * c + 2) ≤ 9223372036854775808 * (2 * c + 2) :=
    mul_le_mul_of_nonneg_right (le_of_lt hr1) hc2
  exact half_to_three_halves c _ hp0 hp1

/-- C13, as amended. Backoff randomised and capped: in every `RoundTrip` whose backoff is the
`ExponentialBackOff` that lines 39-42 build, at most 3 waits are taken from the backoff; the
wait with index `i` is the library's random value around the current interval of that call, at
least half of it and at most one and a half times it (to the nanosecond), so that successive
waits need not be non-decreasing; the current interval grows by the factor 1.5 from one call to
the next; and no wait exceeds the maximal interval of 30 s. -/
theorem C13_backoff_randomised_capped (elapsed : Nat → Duration) (random : Nat → Nat)
    (hrandom : ∀ j, random j < 2 ^ 63) (env : Env)
    (henv : ∀ j, env.nextBackOff j = boNextBackOff elapsed random j) (fuel : Nat) :
    (backoffWaits (RoundTrip env fuel).trace).length ≤ 3 ∧
    ∀ (i : Nat) (d : Duration), (backoffWaits (RoundTrip env fuel).trace)[i]? = some d →
      d = getRandomValueFromInterval 1 2 (random i) (boBefore elapsed random i).currentInterval ∧
      (boBefore elapsed random i).currentInterval / 2 ≤ d ∧
      d ≤ (boBefore elapsed random i).currentInterval * 3 / 2 + 1 ∧
      (boBefore elapsed random (i + 1)).currentInterval
        = (boBefore elapsed random i).currentInterval * 3 / 2 ∧
      d ≤ 30 * Second := by
  have hwaits : ∃ n, n ≤ 3 ∧ backoffWaits (RoundTrip env fuel).trace
        = (List.range n).map (fun i => env.nextBackOff i) ∧
      ∀ i, i < n → env.nextBackOff i ≠ Stop := by
    cases hl : env.limiterWait with
    | some e =>
      exact ⟨0, Nat.zero_le _, by simp [RoundTrip_cancelled env fuel e hl, backoffWaits],
        by simp⟩
    | none =>
      obtain ⟨n, hle, hn, hne⟩ := retryLoop_backoffWaits env fuel 0 0
      have hb : backoffWaits ((retryLoop env fuel 0 0).after [.acquire none]).trace
          = backoffWaits (retryLoop env fuel 0 0).trace := by
        simp [Run.after, backoffWaits]
      refine ⟨n, by simpa [maxRetries] using hle, ?_, ?_⟩
      · rw [RoundTrip_acquired env fuel hl, hb, hn]
        apply List.map_congr_left
        intro i _
        rw [Nat.zero_add]
      · intro i hi
        have := hne i hi
        rwa [Nat.zero_add] at this
  obtain ⟨n, hn3, hn, hne⟩ := hwaits
  rw [hn]
  refine ⟨by simpa using hn3, ?_⟩
  intro i d hd
  have hi : i < n := by
    have := (List.getElem?_eq_some_iff.1 hd).1
    simpa using this
  have hdv : d = env.nextBackOff i := by
    have := List.getElem?_eq_some_iff.1 hd
    obtain ⟨hlt, hget⟩ := this
    simp only [List.getElem_map, List.getElem_range] at hget
    exact hget.symm
  have hns := hne i hi
  rw [henv] at hns hdv
  rw [boNextBackOff_value elapsed random i hns] at hdv
  obtain ⟨c0, c1, c2, c3⟩ := boBefore_currentInterval elapsed random
  have hi3 : i < 3 := by omega
  have hcases : i = 0 ∨ i = 1 ∨ i = 2 := by omega
  rcases hcases with rfl | rfl | rfl
  · have hb := getRandomValueFromInterval_bounds (random 0) 500000000 (by norm_num) (hrandom 0)
    rw [c0] at hdv ⊢
    rw [c1, hdv]
    refine ⟨rfl, hb.1, hb.2, by norm_num, ?_⟩
    exact le_trans hb.2 (by norm_num [Second])
  · have hb := getRandomValueFromInterval_bounds (random 1) 750000000 (by norm_num) (hrandom 1)
    rw [c1] at hdv ⊢
    rw [c2, hdv]
    refine ⟨rfl, hb.1, hb.2, by norm_num, ?_⟩
    exact le_trans hb.2 (by norm_num [Second])
  · have hb := getRandomValueFromInterval_bounds (random 2) 1125000000 (by norm_num) (hrandom 2)
    rw [c2] at hdv ⊢
    rw [c3, hdv]
    refine ⟨rfl, hb.1, hb.2, by norm_num, ?_⟩
    exact le_trans hb.2 (by norm_num [Second])

/-- C13, at the server that always answers 429 with the random numbers one half, zero and one
half: three waits are taken from the backoff, the second, 375 ms, lies between half and one
and a half times the 750 ms of the second call, and is below 30 s. -/
theorem C13_backoff_randomised_capped_witness :
    (backoffWaits (RoundTrip envLibraryBackoff 9).trace).length ≤ 3 ∧
    (backoffWaits (RoundTrip envLibraryBackoff 9).trace)[1]? = some 375000000 ∧
    (boBefore (fun _ => 0) drawsHalfZeroHalf 1).currentInterval / 2 ≤ (375000000 : Duration) ∧
    (375000000 : Duration) ≤ 30 * Second :=
  ⟨(C13_backoff_randomised_capped (fun _ => 0) drawsHalfZeroHalf
      (fun j => by unfold drawsHalfZeroHalf; split <;> norm_num) envLibraryBackoff
      (fun _ => rfl) 9).1,
   by decide,
   ((C13_backoff_randomised_capped (fun _ => 0) drawsHalfZeroHalf
      (fun j => by unfold drawsHalfZeroHalf; split <;> norm_num) envLibraryBackoff
      (fun _ => rfl) 9).2 1 375000000 (by decide)).2.1,
   ((C13_backoff_randomised_capped (fun _ => 0) drawsHalfZeroHalf
      (fun j => by unfold drawsHalfZeroHalf; split <;> norm_num) envLibraryBackoff
      (fun _ => rfl) 9).2 1 375000000 (by decide)).2.2.2.2⟩

/-- C13 as stated fails: the server always answers 429 without `Retry-After`, the backoff is the
one lines 39-42 build, and with the random numbers one half, zero and one half the successive
waits taken from it are 500 ms, 375 ms and 1.125 s: the second is shorter than the first. -/
theorem C13_counterexample :
    (RoundTrip envLibraryBackoff 9).trace
      = [.acquire none,
         .send 0 (.response resp429), .drainClose 0, .nextBackOff 500000000,
         .wait 500000000 none,
         .send 1 (.response resp429), .drainClose 1, .nextBackOff 375000000,
         .wait 375000000 none,
         .send 2 (.response resp429), .drainClose 2, .nextBackOff 1125000000,
         .wait 1125000000 none,
         .send 3 (.response resp429)] ∧
    backoffWaits (RoundTrip envLibraryBackoff 9).trace = [500000000, 375000000, 1125000000] ∧
    ¬ List.Chain' (fun a b => a ≤ b) (backoffWaits (RoundTrip envLibraryBackoff 9).trace) := by
  have hwaits : backoffWaits (RoundTrip envLibraryBackoff 9).trace
      = [500000000, 375000000, 1125000000] := by decide
  refine ⟨by decide, hwaits, ?_⟩
  rw [hwaits]
  simp [List.chain'_cons]

/-! ## Requests of the client -/

theorem headerValue_set (req : Request) (key value : String) :
    (req.headerSet key value).headerValue key = some value := by
  simp [Request.headerSet, Request.headerValue]

theorem doRequest_result (c : Client) (newRequestErr : String → String → Option Err)
    (method url : String) (body : Option (List Nat)) (client : HttpClient) (req : Request)
    (h : c.doRequest newRequestErr method url body = .clientDo client req) :
    client = c.httpClient ∧
    req = (if body ≠ none ∧ (method = "POST" ∨ method = "PUT" ∨ method = "PATCH") then
        ({ Method := if method = "" then "GET" else method, URL := url, Header := [],
           Body := body } : Request).headerSet "Content-Type" "application/json"
      else { Method := if method = "" then "GET" else method, URL := url, Header := [],
             Body := body }) := by
  unfold Client.doRequest NewRequestWithContext at h
  cases hn : newRequestErr method url with
  | some err => simp [hn] at h
  | none =>
    simp only [hn, MethodPost, MethodPut, MethodPatch, CallResult.clientDo.injEq] at h
    exact ⟨h.1.symm, h.2.symm⟩

theorem DoAuth_result (c : Client) (newRequestErr : String → String → Option Err)
    (method path : String) (body : Option (List Nat)) (client : HttpClient) (req : Request)
    (h : c.DoAuth newRequestErr method path body = .clientDo client req) :
    client = { Transport := RoundTripper.DefaultTransport, Timeout := 30 * Second } ∧
    req = (if body ≠ none ∧ (method = "POST" ∨ method = "PUT" ∨ method = "PATCH") then
        ({ Method := if method = "" then "GET" else method,
           URL := c.region.AccountsServer ++ path, Header := [],
           Body := body } : Request).headerSet "Content-Type" "application/json"
      else { Method := if method = "" then "GET" else method,
             URL := c.region.AccountsServer ++ path, Header := [], Body := body }) := by
  unfold Client.DoAuth NewRequestWithContext at h
  cases hn : newRequestErr method (c.region.AccountsServer ++ path) with
  | some err => simp [hn] at h
  | none =>
    simp only [hn, MethodPost, MethodPut, MethodPatch, CallResult.clientDo.injEq] at h
    exact ⟨h.1.symm, h.2.symm⟩

theorem contentType_of_built (method url : String) (body : Option (List Nat)) :
    (if body ≠ none ∧ (method = "POST" ∨ method = "PUT" ∨ method = "PATCH") then
        ({ Method := if method = "" then "GET" else method, URL := url, Header := [],
           Body := body } : Request).headerSet "Content-Type" "application/json"
      else { Method := if method = "" then "GET" else method, URL := url, Header := [],
             Body := body }).headerValue "Content-Type"
      = if body ≠ none ∧ (method = "POST" ∨ method = "PUT" ∨ method = "PATCH") then
          some "application/json"
        else none := by
  split
  · exact headerValue_set _ _ _
  · simp [Request.headerValue]

/-- When `http.NewRequestWithContext` reports no error, `doRequest` hands a request to the
client's `http.Client`, whose `Content-Type` is as the method and the body decide. -/
theorem doRequest_builds (c : Client) (newRequestErr : String → String → Option Err)
    (method url : String) (body : Option (List Nat)) (h : newRequestErr method url = none) :
    ∃ req, c.doRequest newRequestErr method url body = .clientDo c.httpClient req ∧
      req.URL = url ∧ req.Body = body ∧
      req.headerValue "Content-Type"
        = if body ≠ none ∧ (method = "POST" ∨ method = "PUT" ∨ method = "PATCH") then
            some "application/json"
          else none := by
  refine ⟨if body ≠ none ∧ (method = "POST" ∨ method = "PUT" ∨ method = "PATCH") then
        ({ Method := if method = "" then "GET" else method, URL := url, Header := [],
           Body := body } : Request).headerSet "Content-Type" "application/json"
      else { Method := if method = "" then "GET" else method, URL := url, Header := [],
             Body := body }, ?_, ?_, ?_, contentType_of_built _ _ _⟩
  · unfold Client.doRequest NewRequestWithContext
    rw [h]
    rfl
  · split <;> rfl
  · split <;> rfl

theorem doRequest_fails (c : Client) (newRequestErr : String → String → Option Err)
    (method url : String) (body : Option (List Nat)) (err : Err)
    (h : newRequestErr method url = some err) :
    c.doRequest newRequestErr method url body = .createError ("create request: " ++ err) := by
  unfold Client.doRequest NewRequestWithContext
  rw [h]

/-- When `http.NewRequestWithContext` reports no error, `DoAuth` hands a request to an
`http.Client` on `http.DefaultTransport`, whose `Content-Type` is as the method and the body
decide. -/
theorem DoAuth_builds (c : Client) (newRequestErr : String → String → Option Err)
    (method path : String) (body : Option (List Nat))
    (h : newRequestErr method (c.region.AccountsServer ++ path) = none) :
    ∃ req, c.DoAuth newRequestErr method path body
        = .clientDo { Transport := .DefaultTransport, Timeout := 30 * Second } req ∧
      req.URL = c.region.AccountsServer ++ path ∧ req.Body = body ∧
      req.headerValue "Content-Type"
        = if body ≠ none ∧ (method = "POST" ∨ method = "PUT" ∨ method = "PATCH") then
            some "application/json"
          else none := by
  refine ⟨if body ≠ none ∧ (method = "POST" ∨ method = "PUT" ∨ method = "PATCH") then
        ({ Method := if method = "" then "GET" else method,
           URL := c.region.AccountsServer ++ path, Header := [],
           Body := body } : Request).headerSet "Content-Type" "application/json"
      else { Method := if method = "" then "GET" else method,
             URL := c.region.AccountsServer ++ path, Header := [], Body := body },
    ?_, ?_, ?_, contentType_of_built _ _ _⟩
  · unfold Client.DoAuth NewRequestWithContext
    simp only [h]
    rfl
  · split <;> rfl
  · split <;> rfl

theorem DoAuth_fails (c : Client) (newRequestErr : String → String → Option Err)
    (method path : String) (body : Option (List Nat)) (err : Err)
    (h : newRequestErr method (c.region.AccountsServer ++ path) = some err) :
    c.DoAuth newRequestErr method path body = .createError ("create request: " ++ err) := by
  unfold Client.DoAuth NewRequestWithContext
  simp only [h]

/-- C15. Content-Type only for body-bearing mutating methods: for every method, path and body,
each of `Do`, `DoMail` (both through `doRequest`) and `DoAuth` returns the wrapped error of
`http.NewRequestWithContext` when that reports one, and otherwise builds a request for its
address and the body and hands it to its `http.Client`; that request carries
`Content-Type: application/json` if the body is not nil and the method is `POST`, `PUT` or
`PATCH`, and carries no `Content-Type` header in every other case. -/
theorem C15_content_type (c : Client) (newRequestErr : String → String → Option Err)
    (method path : String) (body : Option (List Nat)) :
    ((∀ err, newRequestErr method (c.region.APIBase ++ path) = some err →
        c.Do newRequestErr method path body = .createError ("create request: " ++ err)) ∧
      (newRequestErr method (c.region.APIBase ++ path) = none →
        ∃ req, c.Do newRequestErr method path body = .clientDo c.httpClient req ∧
          req.URL = c.region.APIBase ++ path ∧ req.Body = body ∧
          req.headerValue "Content-Type"
            = if body ≠ none ∧ (method = "POST" ∨ method = "PUT" ∨ method = "PATCH") then
                some "application/json"
              else none)) ∧
    ((∀ err, newRequestErr method (c.region.MailBase ++ path) = some err →
        c.DoMail newRequestErr method path body = .createError ("create request: " ++ err)) ∧
      (newRequestErr method (c.region.MailBase ++ path) = none →
        ∃ req, c.DoMail newRequestErr method path body = .clientDo c.httpClient req ∧
          req.URL = c.region.MailBase ++ path ∧ req.Body = body ∧
          req.headerValue "Content-Type"
            = if body ≠ none ∧ (method = "POST" ∨ method = "PUT" ∨ method = "PATCH") then
                some "application/json"
              else none)) ∧
    ((∀ err, newRequestErr method (c.region.AccountsServer ++ path) = some err →
        c.DoAuth newRequestErr method path body = .createError ("create request: " ++ err)) ∧
      (newRequestErr method (c.region.AccountsServer ++ path) = none →
        ∃ req, c.DoAuth newRequestErr method path body
            = .clientDo { Transport := .DefaultTransport, Timeout := 30 * Second } req ∧
          req.URL = c.region.AccountsServer ++ path ∧ req.Body = body ∧
          req.headerValue "Content-Type"
            = if body ≠ none ∧ (method = "POST" ∨ method = "PUT" ∨ method = "PATCH") then
                some "application/json"
              else none)) :=
  ⟨⟨fun err h => doRequest_fails c newRequestErr method _ body err h,
    fun h => doRequest_builds c newRequestErr method _ body h⟩,
   ⟨fun err h => doRequest_fails c newRequestErr method _ body err h,
    fun h => doRequest_builds c newRequestErr method _ body h⟩,
   ⟨fun err h => DoAuth_fails c newRequestErr method path body err h,
    fun h => DoAuth_builds c newRequestErr method path body h⟩⟩

/-- C15, at a `POST` with a body, a `GET` with a body and a `PUT` without a body through `Do`
and `DoMail`, and at a `PATCH` with a body and a `GET` without one through `DoAuth`. -/
theorem C15_content_type_witness :
    (clientEU.Do newRequestOK "POST" "/api/users" (some [1, 2])
      = .clientDo clientEU.httpClient
          { Method := "POST", URL := "https://www.zohoapis.eu/api/users",
            Header := [("Content-Type", "application/json")], Body := some [1, 2] }) ∧
    (clientEU.Do newRequestOK "GET" "/api/users" (some [1, 2])
      = .clientDo clientEU.httpClient
          { Method := "GET", URL := "https://www.zohoapis.eu/api/users",
            Header := [], Body := some [1, 2] }) ∧
    (clientEU.DoMail newRequestOK "PUT" "/api/accounts" none
      = .clientDo clientEU.httpClient
          { Method := "PUT", URL := "https://mail.zoho.eu/api/accounts",
            Header := [], Body := none }) ∧
    (clientEU.DoAuth newRequestOK "PATCH" "/oauth/v2/token" (some [3])
      = .clientDo { Transport := .DefaultTransport, Timeout := 30 * Second }
          { Method := "PATCH", URL := "https://accounts.zoho.eu/oauth/v2/token",
            Header := [("Content-Type", "application/json")], Body := some [3] }) ∧
    (clientEU.DoAuth newRequestOK "GET" "/oauth/v2/token/info" none
      = .clientDo { Transport := .DefaultTransport, Timeout := 30 * Second }
          { Method := "GET", URL := "https://accounts.zoho.eu/oauth/v2/token/info",
            Header := [], Body := none }) ∧
    (∃ req, clientEU.DoAuth newRequestOK "PATCH" "/oauth/v2/token" (some [3])
        = .clientDo { Transport := .DefaultTransport, Timeout := 30 * Second } req ∧
      req.URL = clientEU.region.AccountsServer ++ "/oauth/v2/token" ∧ req.Body = some [3] ∧
      req.headerValue "Content-Type"
        = if (some [3] : Option (List Nat)) ≠ none ∧
              ("PATCH" = "POST" ∨ "PATCH" = "PUT" ∨ "PATCH" = "PATCH") then
            some "application/json"
          else none) :=
  ⟨by decide, by decide, by decide, by decide, by decide,
   (C15_content_type clientEU newRequestOK "PATCH" "/oauth/v2/token" (some [3])).2.2.2 rfl⟩

/-- C16, as amended. Requests issued through `Do` and `DoMail` are executed by the client's own
`http.Client`, whose transport is the `RateLimitTransport` on the client's one limiter over the
OAuth2 transport; a request issued through `DoAuth` is the request `doRequest` would build for
the accounts server, but it is executed by a separate `http.Client` of the same timeout on
`http.DefaultTransport`: it gets no bearer credential and it acquires no token from any
limiter. -/
theorem C16_limiter_on_Do_and_DoMail (getRegion : String → Except Err RegionConfig)
    (limiterId : Nat) (cfgRegion : String) (tokenSource : TokenSource) (c : Client)
    (hc : NewClient getRegion limiterId cfgRegion tokenSource = .ok c)
    (newRequestErr : String → String → Option Err) (method path : String)
    (body : Option (List Nat)) :
    c.httpClient.Transport
      = .RateLimitTransport (.oauth2Transport .DefaultTransport tokenSource) c.rateLimiter ∧
    c.httpClient.Transport.limiters = [c.rateLimiter] ∧
    c.httpClient.Transport.tokenSources = [tokenSource] ∧
    (∀ client req, c.Do newRequestErr method path body = .clientDo client req →
      client = c.httpClient) ∧
    (∀ client req, c.DoMail newRequestErr method path body = .clientDo client req →
      client = c.httpClient) ∧
    (∀ client req, c.DoAuth newRequestErr method path body = .clientDo client req →
      client.Transport = .DefaultTransport ∧
      client.Transport.limiters = [] ∧
      client.Transport.tokenSources = [] ∧
      client.Timeout = c.httpClient.Timeout ∧
      c.doRequest newRequestErr method (c.region.AccountsServer ++ path) body
        = .clientDo c.httpClient req) := by
  have hclient : c.httpClient
      = { Transport :=
            .RateLimitTransport (.oauth2Transport .DefaultTransport tokenSource) c.rateLimiter
          Timeout := 30 * Second } := by
    unfold NewClient at hc
    cases hg : getRegion cfgRegion with
    | error err => simp [hg] at hc
    | ok regionConfig =>
      simp only [hg, Except.ok.injEq] at hc
      subst hc
      rfl
  refine ⟨by rw [hclient], by rw [hclient]; rfl, by rw [hclient]; rfl, ?_, ?_, ?_⟩
  · intro client req h
    exact (doRequest_result c newRequestErr method _ body client req h).1
  · intro client req h
    exact (doRequest_result c newRequestErr method _ body client req h).1
  · intro client req h
    obtain ⟨h1, h2⟩ := DoAuth_result c newRequestErr method path body client req h
    refine ⟨by rw [h1], by rw [h1]; rfl, by rw [h1]; rfl, by rw [h1, hclient], ?_⟩
    unfold Client.DoAuth at h
    unfold Client.doRequest
    cases hn : NewRequestWithContext newRequestErr method (c.region.AccountsServer ++ path) body with
    | error err => simp [hn] at h
    | ok req0 =>
      simp only [hn, CallResult.clientDo.injEq] at h ⊢
      exact ⟨trivial, h.2⟩

/-- C16, at the client built for the region `eu`: a `GET` through `Do` goes to the client's
rate-limited transport, the same `GET` through `DoAuth` to `http.DefaultTransport`. -/
theorem C16_limiter_on_Do_and_DoMail_witness :
    NewClient getRegionEU 7 "eu" "ts" = .ok clientEU ∧
    clientEU.httpClient.Transport.limiters = [clientEU.rateLimiter] ∧
    clientEU.Do newRequestOK "GET" "/api/users" none
      = .clientDo clientEU.httpClient
          { Method := "GET", URL := "https://www.zohoapis.eu/api/users", Header := [],
            Body := none } :=
  ⟨rfl,
   (C16_limiter_on_Do_and_DoMail getRegionEU 7 "eu" "ts" clientEU rfl newRequestOK "GET"
      "/api/users" none).2.1,
   by decide⟩

/-- C16 as stated fails: the request that `DoAuth` issues for the client built by `NewClient`
is executed by an `http.Client` on `http.DefaultTransport`, not by the client's
`RateLimitTransport`: no limiter is on its way, and the client's limiter in particular is
not. -/
theorem C16_counterexample :
    NewClient getRegionEU 7 "eu" "ts" = .ok clientEU ∧
    clientEU.DoAuth newRequestOK "GET" "/oauth/v2/token/info" none
      = .clientDo { Transport := .DefaultTransport, Timeout := 30 * Second }
          { Method := "GET", URL := "https://accounts.zoho.eu/oauth/v2/token/info",
            Header := [], Body := none } ∧
    RoundTripper.DefaultTransport ≠ clientEU.httpClient.Transport ∧
    RoundTripper.DefaultTransport.limiters = [] ∧
    clientEU.rateLimiter ∉ RoundTripper.DefaultTransport.limiters :=
  ⟨rfl, by decide, by decide, rfl, by decide⟩

end Zoho
